import Mathlib

/-!
# Verification of the study-plan scheduler (`generateSchedule`)

Shallow embedding of the scheduler implemented in
`src/screens/UserDashboard.tsx` (functions `expandCycleItems`,
`isSimuladoCompleted`, `generateSchedule` and the inline helpers they use).

Modelling conventions:

* Calendar dates are modelled as natural-number day indices; consecutive
  indices are consecutive days and the weekday of day `n` is `n % 7`, with
  `0 = domingo` (Sunday), matching JavaScript `Date.getDay()` and the
  `dayMap` of `getDayName`.  The `dateStr` used inside derived unique ids is
  modelled as `toString` of the day index.
* JavaScript numbers for minute budgets are modelled as `Int` (the budget can
  become negative through the "first item always fits" rule before the loop
  condition stops the day).  Routine availability values are `Nat`.
* The external duration table `calculateGoalDuration` (imported from
  `constants`, outside the scheduler source) is an explicit function
  parameter `calcDur`, as specified: "a pure function of (goal, learner
  level) → estimated minutes".
* Mutable records keyed by discipline id (`disciplineQueues`,
  `disciplinePointers`) are modelled as association lists with
  overwrite-on-assignment semantics; a missing key is `none`, mirroring
  JavaScript `undefined` lookups (in particular `undefined >= n` is false in
  the cycle-exhaustion test).
* The two `while` loops are modelled with explicit fuel: the day loop's fuel
  is exactly the source's `safetyLoop < 500` bound (the `safety` counter in
  the state mirrors the source variable), and the inner discipline-visit
  loop's fuel is `queue.length + 1`, which strictly exceeds the number of
  iterations the loop can make (the pointer strictly increases and must stay
  below `queue.length`), so the fuel never runs out for the inner loop.
-/

namespace Insanus

/-- A goal: identifier, type string (the lesson type is `"AULA"`), title and
sort order, as read by the scheduler. -/
structure Goal where
  id : String
  type : String
  title : String
  order : Nat
  deriving Repr, DecidableEq

/-- A subject: name, sort order and its ordered goals. -/
structure Subject where
  name : String
  order : Nat
  goals : List Goal
  deriving Repr, DecidableEq

/-- A discipline: identifier, name, sort order, optional folder membership
and its subjects. -/
structure Discipline where
  id : String
  name : String
  order : Nat
  folderId : Option String
  subjects : List Subject
  deriving Repr, DecidableEq

/-- A cycle item references a discipline (with a subjects-per-visit target),
a folder, or an exam (simulado).  Absent fields are `none`. -/
structure CycleItem where
  disciplineId : Option String := none
  subjectsCount : Nat := 0
  simuladoId : Option String := none
  folderId : Option String := none
  deriving Repr, DecidableEq

/-- A cycle: identifier and ordered items. -/
structure Cycle where
  id : String
  items : List CycleItem
  deriving Repr, DecidableEq

/-- The plan's cycle-advancement mode (`plan.cycleSystem`). -/
inductive CycleSystem where
  | continuo
  | rotativo
  deriving Repr, DecidableEq

/-- A study plan: ordered disciplines, ordered cycles and the optional
cycle-system mode (`undefined` defaults to `continuo` in the source). -/
structure StudyPlan where
  disciplines : List Discipline
  cycles : List Cycle
  cycleSystem : Option CycleSystem := none
  deriving Repr, DecidableEq

/-- The weekly routine: available minutes for each weekday
(`routine.days`). -/
structure Routine where
  domingo : Nat := 0
  segunda : Nat := 0
  terca : Nat := 0
  quarta : Nat := 0
  quinta : Nat := 0
  sexta : Nat := 0
  sabado : Nat := 0
  deriving Repr, DecidableEq

/-- An exam definition (the fields the scheduler reads). -/
structure Simulado where
  id : String
  title : String
  totalQuestions : Nat
  deriving Repr, DecidableEq

/-- A recorded exam attempt. -/
structure SimuladoAttempt where
  simuladoId : String
  deriving Repr, DecidableEq

/-- A goal annotated with its owning subject and discipline names, as the
source attaches `_subjectName` and `_disciplineName` during queue
flattening. -/
structure QueuedGoal where
  goal : Goal
  subjectName : String
  disciplineName : String
  deriving Repr, DecidableEq

/-- An output scheduled item.  `simuladoData` is `some` exactly for exam
items; `originalGoal` is `some` exactly for goal items. -/
structure ScheduledItem where
  uniqueId : String
  date : Nat
  goalId : String
  goalType : String
  title : String
  disciplineName : String
  subjectName : String
  duration : Nat
  isRevision : Bool
  completed : Bool
  originalGoal : Option Goal := none
  simuladoData : Option Simulado := none
  deriving Repr, DecidableEq

/-- Stable ascending insertion of an element into a list sorted by the
`order` projection; models JavaScript's stable `sort((a,b) => a.order -
b.order)`. -/
def insertByOrder (ord : α → Nat) (x : α) : List α → List α
  | [] => [x]
  | y :: ys => if ord x < ord y then x :: y :: ys else y :: insertByOrder ord x ys

/-- Stable sort by the `order` projection. -/
def sortByOrder (ord : α → Nat) : List α → List α
  | [] => []
  | x :: xs => insertByOrder ord x (sortByOrder ord xs)

/-- `expandCycleItems` from the source: resolve folder references into one
item per matching discipline (in `order`-sorted sequence), keep discipline
and exam items unchanged, and drop items with none of the three
references. -/
def expandCycleItems (cycle : Cycle) (plan : StudyPlan) : List CycleItem :=
  cycle.items.foldl (fun expandedItems item =>
    match item.folderId with
    | some fid =>
        let folderDisciplines :=
          sortByOrder (fun d => d.order) (plan.disciplines.filter (fun d => d.folderId == some fid))
        expandedItems ++ folderDisciplines.map (fun d =>
          { disciplineId := some d.id, subjectsCount := item.subjectsCount })
    | none =>
        if item.disciplineId.isSome then expandedItems ++ [item]
        else if item.simuladoId.isSome then expandedItems ++ [item]
        else expandedItems) []

/-- `isSimuladoCompleted` from the source. -/
def isSimuladoCompleted (simuladoId : String) (attempts : List SimuladoAttempt) : Bool :=
  attempts.any (fun a => a.simuladoId == simuladoId)

/-- The flattened goal queue of one discipline: subjects sorted by `order`,
then each subject's goals sorted by `order`, each goal annotated with the
subject and discipline names (the `disciplineQueues` construction). -/
def flattenDiscipline (d : Discipline) : List QueuedGoal :=
  (sortByOrder (fun s => s.order) d.subjects).foldl (fun flatGoals s =>
    flatGoals ++ (sortByOrder (fun g => g.order) s.goals).map (fun g =>
      { goal := g, subjectName := s.name, disciplineName := d.name })) []

/-- Lookup of `disciplineQueues[did]`.  The source builds the record by
iterating over `plan.disciplines`, so a duplicated id keeps the last
assignment; a key never assigned is `undefined` (`none`). -/
def lookupQueue (plan : StudyPlan) (did : String) : Option (List QueuedGoal) :=
  (plan.disciplines.reverse.find? (fun d => d.id == did)).map flattenDiscipline

/-- Association-list read (`record[key]`, `undefined` when absent). -/
def getPtr (ptrs : List (String × Nat)) (k : String) : Option Nat :=
  (ptrs.find? (fun p => p.1 == k)).map (fun p => p.2)

/-- Association-list overwrite-or-insert (`record[key] = v`). -/
def setPtr (ptrs : List (String × Nat)) (k : String) (v : Nat) : List (String × Nat) :=
  match ptrs with
  | [] => [(k, v)]
  | (k', v') :: rest => if k' == k then (k, v) :: rest else (k', v') :: setPtr rest k v

/-- `disciplinePointers` initialisation: every plan discipline starts at 0. -/
def initPtrs (plan : StudyPlan) : List (String × Nat) :=
  plan.disciplines.foldl (fun a d => setPtr a d.id 0) []

/-- The run parameters threaded through the scheduling walk. -/
structure Ctx where
  calcDur : Goal → String → Nat
  plan : StudyPlan
  routine : Routine
  startDate : Nat
  completedGoals : List String
  userLevel : String
  allSimulados : List Simulado
  userAttempts : List SimuladoAttempt

/-- `plan.cycleSystem || 'continuo'`. -/
def Ctx.mode (ctx : Ctx) : CycleSystem :=
  ctx.plan.cycleSystem.getD .continuo

/-- Bundle the run parameters. -/
def mkCtx (calcDur : Goal → String → Nat) (plan : StudyPlan) (routine : Routine)
    (startDate : Nat) (completedGoals : List String) (userLevel : String)
    (allSimulados : List Simulado) (userAttempts : List SimuladoAttempt) : Ctx :=
  { calcDur := calcDur, plan := plan, routine := routine, startDate := startDate
    completedGoals := completedGoals, userLevel := userLevel
    allSimulados := allSimulados, userAttempts := userAttempts }

/-- `isCycleExhausted` from the source: every expanded item is an attempted
exam, or a discipline whose pointer reached the end of its queue; an item
whose discipline id was never registered makes `ptr` read as `undefined`,
and `undefined >= n` is false, so such an item counts as not finished. -/
def isCycleExhausted (ctx : Ctx) (ptrs : List (String × Nat)) (cIndex : Nat) : Bool :=
  match ctx.plan.cycles[cIndex]? with
  | none => true
  | some c =>
      (expandCycleItems c ctx.plan).all (fun item =>
        match item.simuladoId with
        | some sid => isSimuladoCompleted sid ctx.userAttempts
        | none =>
            match item.disciplineId with
            | some did =>
                match getPtr ptrs did with
                | some ptr => ptr ≥ ((lookupQueue ctx.plan did).map List.length).getD 0
                | none => false
            | none => true)

/-- Duration resolution (source lines 857-859): external estimate, then the
15-minute substitution for zero-duration non-lesson goals, then the
30-minute substitution when still zero. -/
def resolveDuration (calcDur : Goal → String → Nat) (goal : Goal) (userLevel : String) : Nat :=
  let duration := calcDur goal userLevel
  let duration := if duration == 0 && goal.type != "AULA" then 15 else duration
  if duration == 0 then 30 else duration

/-- `getDayName`: weekday name of a day index (`0 = domingo`). -/
def getDayName (d : Nat) : String :=
  (["domingo", "segunda", "terca", "quarta", "quinta", "sexta", "sabado"].getD (d % 7) "")

/-- `routine.days[dayName] || 0`. -/
def routineGet (r : Routine) (dayName : String) : Nat :=
  if dayName == "domingo" then r.domingo
  else if dayName == "segunda" then r.segunda
  else if dayName == "terca" then r.terca
  else if dayName == "quarta" then r.quarta
  else if dayName == "quinta" then r.quinta
  else if dayName == "sexta" then r.sexta
  else if dayName == "sabado" then r.sabado
  else 0

/-- `Object.values(routine.days).some(v => v > 0)`. -/
def hasAvailability (r : Routine) : Bool :=
  r.domingo > 0 || r.segunda > 0 || r.terca > 0 || r.quarta > 0 ||
    r.quinta > 0 || r.sexta > 0 || r.sabado > 0

/-- Derived unique id of a goal item:
`dateStr_cycleId_disciplineId_goalId`. -/
def encGoalId (dateN : Nat) (cycleId did goalId : String) : String :=
  toString dateN ++ "_" ++ cycleId ++ "_" ++ did ++ "_" ++ goalId

/-- Derived unique id of an exam item: `dateStr_SIM_simuladoId`. -/
def encExamId (dateN : Nat) (simId : String) : String :=
  toString dateN ++ "_SIM_" ++ simId

/-- The scheduled item pushed for a goal (source lines 864-870), including
the `|| "Disciplina"` / `|| "Assunto"` fallbacks for empty display names. -/
def mkGoalItem (calcDur : Goal → String → Nat) (userLevel : String) (dateN : Nat)
    (cycleId did : String) (qg : QueuedGoal) : ScheduledItem :=
  { uniqueId := encGoalId dateN cycleId did qg.goal.id
    date := dateN
    goalId := qg.goal.id
    goalType := qg.goal.type
    title := qg.goal.title
    disciplineName := if qg.disciplineName == "" then "Disciplina" else qg.disciplineName
    subjectName := if qg.subjectName == "" then "Assunto" else qg.subjectName
    duration := resolveDuration calcDur qg.goal userLevel
    isRevision := false
    completed := false
    originalGoal := some qg.goal
    simuladoData := none }

/-- The scheduled item pushed for an exam (source lines 808-820). -/
def mkExamItem (dateN : Nat) (simulado : Simulado) : ScheduledItem :=
  { uniqueId := encExamId dateN simulado.id
    date := dateN
    goalId := simulado.id
    goalType := "SIMULADO"
    title := "SIMULADO: " ++ simulado.title
    disciplineName := "AVALIAÇÃO"
    subjectName := toString simulado.totalQuestions ++ " Questões"
    duration := simulado.totalQuestions * 3
    isRevision := false
    completed := false
    originalGoal := none
    simuladoData := some simulado }

/-- State of the inner discipline-visit loop (source lines 844-886). -/
structure VState where
  pointer : Nat
  scheduled : Nat
  lastSub : String
  minutes : Int
  items : List ScheduledItem
  itemsToday : Nat
  processed : Bool
  ptrs : List (String × Nat)
  deriving Repr

/-- The inner discipline-visit loop: walk the queue from the pointer,
skipping completed goals without charging minutes, placing each other goal
when it fits or is the first item of the day, counting a subject advance
only on a subject change, stopping on the target, the end of the queue, or
a failed budget check (which zeroes the remaining minutes). -/
def visit (ctx : Ctx) (dateN : Nat) (cycleId did : String) (target : Nat)
    (q : List QueuedGoal) : Nat → VState → VState
  | 0, s => s
  | fuel + 1, s =>
    if h : s.scheduled < target ∧ s.pointer < q.length then
      let qg := q.get ⟨s.pointer, h.2⟩
      if ctx.completedGoals.contains qg.goal.id then
        visit ctx dateN cycleId did target q fuel
          { s with pointer := s.pointer + 1, ptrs := setPtr s.ptrs did (s.pointer + 1) }
      else
        let duration := resolveDuration ctx.calcDur qg.goal ctx.userLevel
        let isSameSub := s.lastSub != "" && qg.subjectName == s.lastSub
        if s.minutes ≥ (duration : Int) || s.itemsToday == 0 then
          visit ctx dateN cycleId did target q fuel
            { pointer := s.pointer + 1
              scheduled := if isSameSub then s.scheduled else s.scheduled + 1
              lastSub := if isSameSub then s.lastSub else qg.subjectName
              minutes := s.minutes - (duration : Int)
              items := s.items ++ [mkGoalItem ctx.calcDur ctx.userLevel dateN cycleId did qg]
              itemsToday := s.itemsToday + 1
              processed := true
              ptrs := setPtr s.ptrs did (s.pointer + 1) }
        else
          { s with minutes := 0 }
    else s

/-- State of the per-day allocation loop.  `safety` mirrors the source's
`safetyLoop` counter. -/
structure DayState where
  cycleIdx : Nat
  itemIdx : Nat
  ptrs : List (String × Nat)
  minutes : Int
  items : List ScheduledItem
  itemsToday : Nat
  safety : Nat
  deriving Repr

/-- Result of one iteration of the day loop body: continue looping, or leave
the loop (`break`, or a state whose budget the loop condition will
reject). -/
inductive StepRes where
  | cont (st : DayState)
  | stop (st : DayState)
  deriving Repr

/-- The day-loop body after the cycle-bounds check: fetch and expand the
current cycle, handle the end of its item list (continuous mode only
advances past an exhausted cycle; rotating mode always advances), then
process the current item (exam or discipline). -/
def dayStepCore (ctx : Ctx) (dateN : Nat) (st : DayState) : StepRes :=
  match ctx.plan.cycles[st.cycleIdx]? with
  | none => .stop st
  | some cycle =>
    let activeItems := expandCycleItems cycle ctx.plan
    if st.itemIdx ≥ activeItems.length then
      if ctx.mode == .continuo then
        if isCycleExhausted ctx st.ptrs st.cycleIdx then
          .cont { st with cycleIdx := st.cycleIdx + 1, itemIdx := 0 }
        else
          .cont { st with itemIdx := 0 }
      else
        .cont { st with cycleIdx := st.cycleIdx + 1, itemIdx := 0 }
    else
      match activeItems[st.itemIdx]? with
      | none => .cont st
      | some cycleItem =>
        match cycleItem.simuladoId with
        | some simId =>
          if isSimuladoCompleted simId ctx.userAttempts then
            .cont { st with itemIdx := st.itemIdx + 1 }
          else
            match ctx.allSimulados.find? (fun s => s.id == simId) with
            | some simulado =>
              if st.itemsToday == 0 || st.minutes > 60 then
                .cont { st with
                  items := st.items ++ [mkExamItem dateN simulado]
                  minutes := 0
                  itemsToday := st.itemsToday + 1
                  itemIdx := st.itemIdx + 1 }
              else
                .stop { st with minutes := 0 }
            | none => .cont { st with itemIdx := st.itemIdx + 1 }
        | none =>
          match cycleItem.disciplineId with
          | some did =>
            match lookupQueue ctx.plan did with
            | none => .cont { st with itemIdx := st.itemIdx + 1 }
            | some q =>
              let pointer := (getPtr st.ptrs did).getD 0
              if pointer ≥ q.length then
                .cont { st with itemIdx := st.itemIdx + 1 }
              else
                let v := visit ctx dateN cycle.id did cycleItem.subjectsCount q (q.length + 1)
                  { pointer := pointer, scheduled := 0, lastSub := "", minutes := st.minutes
                    items := st.items, itemsToday := st.itemsToday, processed := false
                    ptrs := st.ptrs }
                let st' : DayState := { st with
                  minutes := v.minutes, items := v.items
                  itemsToday := v.itemsToday, ptrs := v.ptrs }
                if v.scheduled ≥ cycleItem.subjectsCount || v.pointer ≥ q.length then
                  .cont { st' with itemIdx := st.itemIdx + 1 }
                else if !v.processed && v.minutes ≤ 0 then
                  .stop st'
                else
                  .cont st'
          | none => .cont st

/-- One iteration of the day loop body, starting with the cycle-bounds
check: past the last cycle, rotating mode wraps to cycle 0 and falls
through into the body; continuous mode leaves the loop (plan complete). -/
def dayStep (ctx : Ctx) (dateN : Nat) (st : DayState) : StepRes :=
  if st.cycleIdx ≥ ctx.plan.cycles.length then
    if ctx.mode == .rotativo then
      dayStepCore ctx dateN { st with cycleIdx := 0 }
    else
      .stop st
  else
    dayStepCore ctx dateN st

/-- The day loop `while (minutesAvailable > 0 && safetyLoop < 500)`, with
the fuel equal to `500 - safetyLoop`; `safety` is incremented at the top of
each iteration exactly as in the source. -/
def dayLoop (ctx : Ctx) (dateN : Nat) : Nat → DayState → DayState
  | 0, st => st
  | fuel + 1, st =>
    if st.minutes ≤ 0 then st
    else
      match dayStep ctx dateN { st with safety := st.safety + 1 } with
      | .stop s => s
      | .cont s => dayLoop ctx dateN fuel s

/-- The walk state carried from one day to the next. -/
structure RunState where
  cycleIdx : Nat
  itemIdx : Nat
  ptrs : List (String × Nat)
  deriving Repr

/-- Process one day of the horizon: a weekday with zero availability is
skipped entirely; otherwise the day loop runs with fresh per-day state and
the day's items are recorded only when non-empty. -/
def processDay (ctx : Ctx) (rs : RunState) (dayOffset : Nat) :
    Option (Nat × List ScheduledItem) × RunState :=
  let dateN := ctx.startDate + dayOffset
  let minutesAvailable : Int := routineGet ctx.routine (getDayName dateN)
  if minutesAvailable == 0 then (none, rs)
  else
    let r := dayLoop ctx dateN 500
      { cycleIdx := rs.cycleIdx, itemIdx := rs.itemIdx, ptrs := rs.ptrs
        minutes := minutesAvailable, items := [], itemsToday := 0, safety := 0 }
    ((if r.items.isEmpty then none else some (dateN, r.items)),
      { cycleIdx := r.cycleIdx, itemIdx := r.itemIdx, ptrs := r.ptrs })

/-- Run the remaining day offsets, collecting the recorded day entries. -/
def runFrom (ctx : Ctx) (rs : RunState) : List Nat → List (Nat × List ScheduledItem)
  | [] => []
  | k :: ks =>
    match processDay ctx rs k with
    | (some e, rs') => e :: runFrom ctx rs' ks
    | (none, rs') => runFrom ctx rs' ks

/-- The walk state after processing a list of day offsets. -/
def stateAfter (ctx : Ctx) (rs : RunState) : List Nat → RunState
  | [] => rs
  | k :: ks => stateAfter ctx (processDay ctx rs k).2 ks

/-- The continuous-mode pre-skip `while (idx < len && isCycleExhausted idx)
idx++`, with fuel `plan.cycles.length`. -/
def preSkip (ctx : Ctx) (ptrs : List (String × Nat)) : Nat → Nat → Nat
  | 0, idx => idx
  | fuel + 1, idx =>
    if idx < ctx.plan.cycles.length && isCycleExhausted ctx ptrs idx then
      preSkip ctx ptrs fuel (idx + 1)
    else idx

/-- The initial cycle index: continuous mode skips cycles already exhausted
at the start; rotating mode always starts at cycle 0. -/
def initialCycleIndex (ctx : Ctx) : Nat :=
  if ctx.mode == .continuo then preSkip ctx (initPtrs ctx.plan) ctx.plan.cycles.length 0
  else 0

/-- The initial walk state of a run. -/
def initRunState (ctx : Ctx) : RunState :=
  { cycleIdx := initialCycleIndex ctx, itemIdx := 0, ptrs := initPtrs ctx.plan }

/-- The horizon bound `MAX_DAYS = 90`. -/
def MAX_DAYS : Nat := 90

/-- `generateSchedule` from the source: the three fast exits (pause, no
cycles, no availability), then the 90-day walk.  The result maps day
indices to the ordered items of that day; days without items are absent. -/
def generateSchedule (calcDur : Goal → String → Nat) (plan : StudyPlan) (routine : Routine)
    (startDate : Nat) (completedGoals : List String) (userLevel : String) (isPaused : Bool)
    (allSimulados : List Simulado) (userAttempts : List SimuladoAttempt) :
    List (Nat × List ScheduledItem) :=
  if isPaused then []
  else if plan.cycles.length == 0 then []
  else if !hasAvailability routine then []
  else
    let ctx : Ctx :=
      { calcDur := calcDur, plan := plan, routine := routine, startDate := startDate
        completedGoals := completedGoals, userLevel := userLevel
        allSimulados := allSimulados, userAttempts := userAttempts }
    runFrom ctx (initRunState ctx) (List.range MAX_DAYS)

/-! ## Basic lemmas about the pointer record -/

theorem getPtr_setPtr_self (p : List (String × Nat)) (k : String) (v : Nat) :
    getPtr (setPtr p k v) k = some v := by
  induction p with
  | nil => simp [setPtr, getPtr, List.find?]
  | cons hd tl ih =>
    obtain ⟨a, b⟩ := hd
    by_cases h : a = k
    · simp [setPtr, h, getPtr, List.find?]
    · have hab : (a == k) = false := beq_eq_false_iff_ne.mpr h
      simpa [setPtr, hab, getPtr, List.find?] using ih

theorem getPtr_setPtr_ne (p : List (String × Nat)) (k k' : String) (v : Nat) (h : k' ≠ k) :
    getPtr (setPtr p k v) k' = getPtr p k' := by
  have hkk : (k == k') = false := beq_eq_false_iff_ne.mpr (fun e => h e.symm)
  induction p with
  | nil => simp [setPtr, getPtr, List.find?, hkk]
  | cons hd tl ih =>
    obtain ⟨a, b⟩ := hd
    by_cases hk : a = k
    · simp [setPtr, hk, getPtr, List.find?, hkk]
    · have hab : (a == k) = false := beq_eq_false_iff_ne.mpr hk
      by_cases hk' : a = k'
      · subst hk'
        simp [setPtr, hab, getPtr, List.find?]
      · have hab' : (a == k') = false := beq_eq_false_iff_ne.mpr hk'
        simpa [setPtr, hab, getPtr, List.find?, hab'] using ih

/-- Pointwise `≤` between pointer records on the keys of the first. -/
def PtrsLe (p p' : List (String × Nat)) : Prop :=
  ∀ k v, getPtr p k = some v → ∃ v', getPtr p' k = some v' ∧ v ≤ v'

theorem PtrsLe.ptrs_refl (p : List (String × Nat)) : PtrsLe p p :=
  fun _ v h => ⟨v, h, Nat.le_refl v⟩

theorem PtrsLe.ptrs_trans {p q r : List (String × Nat)} (h1 : PtrsLe p q) (h2 : PtrsLe q r) :
    PtrsLe p r := by
  intro k v hv
  obtain ⟨v', hv', hle⟩ := h1 k v hv
  obtain ⟨v'', hv'', hle'⟩ := h2 k v' hv'
  exact ⟨v'', hv'', Nat.le_trans hle hle'⟩

theorem PtrsLe.setPtr_of_le {p : List (String × Nat)} {k : String} {w : Nat}
    (h : ∀ v, getPtr p k = some v → v ≤ w) : PtrsLe p (setPtr p k w) := by
  intro k' v hv
  by_cases hk : k' = k
  · subst hk
    exact ⟨w, getPtr_setPtr_self p k' w, h v hv⟩
  · exact ⟨v, (getPtr_setPtr_ne p k k' w hk).trans hv, Nat.le_refl v⟩

/-- Cycle exhaustion is monotone under pointer growth. -/
theorem isCycleExhausted_mono (ctx : Ctx) {p p' : List (String × Nat)} (hle : PtrsLe p p')
    (i : Nat) (h : isCycleExhausted ctx p i = true) : isCycleExhausted ctx p' i = true := by
  unfold isCycleExhausted at h ⊢
  cases hc : ctx.plan.cycles[i]? with
  | none => rfl
  | some c =>
    rw [hc] at h
    rw [List.all_eq_true] at h ⊢
    intro item hitem
    have hi := h item hitem
    cases hsim : item.simuladoId with
    | some sid => simpa [hsim] using hi
    | none =>
      cases hdid : item.disciplineId with
      | some did =>
        simp only [hsim, hdid] at hi ⊢
        cases hv : getPtr p did with
        | none => rw [hv] at hi; exact absurd hi (by simp)
        | some v =>
          rw [hv] at hi
          obtain ⟨v', hv', hvle⟩ := hle did v hv
          rw [hv']
          simp only [decide_eq_true_eq] at hi ⊢
          omega
      | none => simp [hsim, hdid]

/-! ## The skip relation: pointers advance only past completed goals -/

/-- Between two pointer records: each key is unchanged, was absent, or
advanced only across positions that hold completed goals of its queue. -/
def SkipStep (ctx : Ctx) (p p' : List (String × Nat)) : Prop :=
  ∀ k, getPtr p' k = getPtr p k ∨ getPtr p k = none ∨
    ∃ v v' q, getPtr p k = some v ∧ getPtr p' k = some v' ∧
      lookupQueue ctx.plan k = some q ∧ v ≤ v' ∧
      ∀ i, v ≤ i → i < v' → ∀ hi : i < q.length,
        ctx.completedGoals.contains (q.get ⟨i, hi⟩).goal.id = true

theorem SkipStep.skip_refl (ctx : Ctx) (p : List (String × Nat)) : SkipStep ctx p p :=
  fun _ => Or.inl (Eq.refl _)

theorem SkipStep.skip_trans {ctx : Ctx} {p q r : List (String × Nat)}
    (h1 : SkipStep ctx p q) (h2 : SkipStep ctx q r) : SkipStep ctx p r := by
  intro k
  rcases h2 k with h2k | h2k | ⟨v₂, v₂', q₂, hv₂, hv₂', hq₂, hle₂, hcomp₂⟩
  · rcases h1 k with h1k | h1k | ⟨v₁, v₁', q₁, hv₁, hv₁', hq₁, hle₁, hcomp₁⟩
    · exact Or.inl (h2k.trans h1k)
    · exact Or.inr (Or.inl h1k)
    · exact Or.inr (Or.inr ⟨v₁, v₁', q₁, hv₁, h2k.trans hv₁', hq₁, hle₁, hcomp₁⟩)
  · rcases h1 k with h1k | h1k | ⟨v₁, v₁', q₁, hv₁, hv₁', hq₁, hle₁, hcomp₁⟩
    · exact Or.inr (Or.inl (h1k.symm.trans h2k))
    · exact Or.inr (Or.inl h1k)
    · rw [h2k] at hv₁'; exact absurd hv₁' (by simp)
  · rcases h1 k with h1k | h1k | ⟨v₁, v₁', q₁, hv₁, hv₁', hq₁, hle₁, hcomp₁⟩
    · rw [h1k] at hv₂
      exact Or.inr (Or.inr ⟨v₂, v₂', q₂, hv₂, hv₂', hq₂, hle₂, hcomp₂⟩)
    · exact Or.inr (Or.inl h1k)
    · rw [hv₁'] at hv₂
      injection hv₂ with hveq
      subst hveq
      refine Or.inr (Or.inr ⟨v₁, v₂', q₁, hv₁, hv₂', hq₁, Nat.le_trans hle₁ hle₂, ?_⟩)
      intro i hi1 hi2 hilen
      rw [hq₁] at hq₂
      injection hq₂ with hqeq
      subst hqeq
      by_cases hcase : i < v₁'
      · exact hcomp₁ i hi1 hcase hilen
      · exact hcomp₂ i (Nat.le_of_not_lt hcase) hi2 hilen

theorem SkipStep.toPtrsLe {ctx : Ctx} {p p' : List (String × Nat)} (h : SkipStep ctx p p') :
    PtrsLe p p' := by
  intro k v hv
  rcases h k with hk | hk | ⟨v₁, v₁', q₁, hv₁, hv₁', _, hle₁, _⟩
  · exact ⟨v, hk.trans hv, Nat.le_refl v⟩
  · rw [hk] at hv; exact absurd hv (by simp)
  · rw [hv] at hv₁
    injection hv₁ with hveq
    subst hveq
    exact ⟨v₁', hv₁', hle₁⟩

/-! ## Remaining schedulable content -/

/-- A concrete cycle item has remaining schedulable content: an unattempted
exam present in the catalog, or a discipline whose queue holds a
not-yet-completed goal at or past the current pointer. -/
def itemHasContent (ctx : Ctx) (ptrs : List (String × Nat)) (item : CycleItem) : Bool :=
  match item.simuladoId with
  | some sid =>
      !isSimuladoCompleted sid ctx.userAttempts &&
        (ctx.allSimulados.find? (fun s => s.id == sid)).isSome
  | none =>
      match item.disciplineId with
      | some did =>
          match lookupQueue ctx.plan did, getPtr ptrs did with
          | some q, some p =>
              decide (∃ i : Fin q.length,
                p ≤ i.1 ∧ ¬ ctx.completedGoals.contains (q.get i).goal.id = true)
          | some _, none => false
          | none, _ => false
      | none => false

/-- A cycle has remaining schedulable content in some expanded item. -/
def cycleHasContent (ctx : Ctx) (ptrs : List (String × Nat)) (j : Nat) : Bool :=
  match ctx.plan.cycles[j]? with
  | none => false
  | some c => (expandCycleItems c ctx.plan).any (itemHasContent ctx ptrs)

/-- An exhausted cycle has no remaining content. -/
theorem not_content_of_exhausted (ctx : Ctx) (ptrs : List (String × Nat)) (j : Nat)
    (h : isCycleExhausted ctx ptrs j = true) : cycleHasContent ctx ptrs j = false := by
  unfold isCycleExhausted at h
  unfold cycleHasContent
  cases hc : ctx.plan.cycles[j]? with
  | none => rfl
  | some c =>
    rw [hc] at h
    rw [List.all_eq_true] at h
    rw [← Bool.not_eq_true]
    intro hany
    rw [List.any_eq_true] at hany
    obtain ⟨item, hitem, hcont⟩ := hany
    have hex := h item hitem
    unfold itemHasContent at hcont
    cases hsim : item.simuladoId with
    | some sid =>
      simp only [hsim] at hcont hex
      simp only [Bool.and_eq_true, Bool.not_eq_true'] at hcont
      rw [hcont.1] at hex
      exact absurd hex (by simp)
    | none =>
      cases hdid : item.disciplineId with
      | some did =>
        simp only [hsim, hdid] at hcont hex
        cases hq : lookupQueue ctx.plan did with
        | none => simp only [hq] at hcont; exact absurd hcont (by simp)
        | some q =>
          cases hp : getPtr ptrs did with
          | none => simp only [hq, hp] at hcont; exact absurd hcont (by simp)
          | some p =>
            simp only [hq, hp] at hcont hex
            simp only [decide_eq_true_eq] at hcont
            simp only [Option.map_some', Option.getD_some, ge_iff_le, decide_eq_true_eq] at hex
            obtain ⟨i, hip, _⟩ := hcont
            have := i.2
            omega
      | none => simp only [hsim, hdid] at hcont; exact absurd hcont (by simp)

/-- Remaining content survives pointer advances that only skip completed
goals. -/
theorem cycleHasContent_skip (ctx : Ctx) {p p' : List (String × Nat)}
    (hs : SkipStep ctx p p') (j : Nat) (h : cycleHasContent ctx p j = true) :
    cycleHasContent ctx p' j = true := by
  unfold cycleHasContent at h ⊢
  cases hc : ctx.plan.cycles[j]? with
  | none => rw [hc] at h; exact absurd h (by simp)
  | some c =>
    rw [hc] at h
    rw [List.any_eq_true] at h ⊢
    obtain ⟨item, hitem, hcont⟩ := h
    refine ⟨item, hitem, ?_⟩
    unfold itemHasContent at hcont ⊢
    cases hsim : item.simuladoId with
    | some sid => simp only [hsim] at hcont ⊢; exact hcont
    | none =>
      cases hdid : item.disciplineId with
      | some did =>
        simp only [hsim, hdid] at hcont ⊢
        cases hq : lookupQueue ctx.plan did with
        | none => simp only [hq] at hcont; exact absurd hcont (by simp)
        | some q =>
          cases hp : getPtr p did with
          | none => simp only [hq, hp] at hcont; exact absurd hcont (by simp)
          | some v =>
            simp only [hq, hp, decide_eq_true_eq] at hcont
            obtain ⟨i, hiv, hiuncomp⟩ := hcont
            rcases hs did with hk | hk | ⟨w, w', q', hw, hw', hq', hww', hcomp⟩
            · simp only [hq, hk, hp, decide_eq_true_eq]
              exact ⟨i, hiv, hiuncomp⟩
            · rw [hk] at hp; exact absurd hp (by simp)
            · rw [hp] at hw
              injection hw with hweq
              subst hweq
              rw [hq] at hq'
              injection hq' with hqeq
              subst hqeq
              simp only [hq, hw', decide_eq_true_eq]
              refine ⟨i, ?_, hiuncomp⟩
              by_contra hlt
              push_neg at hlt
              exact hiuncomp (hcomp i.1 hiv hlt i.2)
      | none => simp only [hsim, hdid] at hcont; exact absurd hcont (by simp)

/-! ## Step equations for the inner discipline-visit loop -/

theorem visit_zero (ctx : Ctx) (dateN : Nat) (cid did : String) (target : Nat)
    (q : List QueuedGoal) (s : VState) : visit ctx dateN cid did target q 0 s = s := rfl

theorem visit_stop (ctx : Ctx) (dateN : Nat) (cid did : String) (target : Nat)
    (q : List QueuedGoal) (n : Nat) (s : VState)
    (h : ¬(s.scheduled < target ∧ s.pointer < q.length)) :
    visit ctx dateN cid did target q (n + 1) s = s := by
  rw [visit, dif_neg h]

theorem visit_completed (ctx : Ctx) (dateN : Nat) (cid did : String) (target : Nat)
    (q : List QueuedGoal) (n : Nat) (s : VState)
    (h : s.scheduled < target ∧ s.pointer < q.length)
    (hcomp : ctx.completedGoals.contains (q.get ⟨s.pointer, h.2⟩).goal.id = true) :
    visit ctx dateN cid did target q (n + 1) s =
      visit ctx dateN cid did target q n
        { s with pointer := s.pointer + 1, ptrs := setPtr s.ptrs did (s.pointer + 1) } := by
  rw [visit, dif_pos h]
  simp only [hcomp, if_true]

theorem visit_place (ctx : Ctx) (dateN : Nat) (cid did : String) (target : Nat)
    (q : List QueuedGoal) (n : Nat) (s : VState)
    (h : s.scheduled < target ∧ s.pointer < q.length)
    (hcomp : ctx.completedGoals.contains (q.get ⟨s.pointer, h.2⟩).goal.id = false)
    (hb : (decide (s.minutes ≥ (resolveDuration ctx.calcDur (q.get ⟨s.pointer, h.2⟩).goal ctx.userLevel : Int)) ||
      (s.itemsToday == 0)) = true) :
    visit ctx dateN cid did target q (n + 1) s =
      visit ctx dateN cid did target q n
        { pointer := s.pointer + 1
          scheduled := if (s.lastSub != "" && (q.get ⟨s.pointer, h.2⟩).subjectName == s.lastSub) then s.scheduled else s.scheduled + 1
          lastSub := if (s.lastSub != "" && (q.get ⟨s.pointer, h.2⟩).subjectName == s.lastSub) then s.lastSub else (q.get ⟨s.pointer, h.2⟩).subjectName
          minutes := s.minutes - (resolveDuration ctx.calcDur (q.get ⟨s.pointer, h.2⟩).goal ctx.userLevel : Int)
          items := s.items ++ [mkGoalItem ctx.calcDur ctx.userLevel dateN cid did (q.get ⟨s.pointer, h.2⟩)]
          itemsToday := s.itemsToday + 1
          processed := true
          ptrs := setPtr s.ptrs did (s.pointer + 1) } := by
  rw [visit, dif_pos h]
  simp only [hcomp, Bool.false_eq_true, if_false, hb, if_true]

theorem visit_budget (ctx : Ctx) (dateN : Nat) (cid did : String) (target : Nat)
    (q : List QueuedGoal) (n : Nat) (s : VState)
    (h : s.scheduled < target ∧ s.pointer < q.length)
    (hcomp : ctx.completedGoals.contains (q.get ⟨s.pointer, h.2⟩).goal.id = false)
    (hb : (decide (s.minutes ≥ (resolveDuration ctx.calcDur (q.get ⟨s.pointer, h.2⟩).goal ctx.userLevel : Int)) ||
      (s.itemsToday == 0)) = false) :
    visit ctx dateN cid did target q (n + 1) s = { s with minutes := 0 } := by
  rw [visit, dif_pos h]
  simp only [hcomp, Bool.false_eq_true, if_false, hb]

/-! ## Structural lemmas for the discipline visit -/

/-- Every item appended by a visit is a not-yet-completed goal of the
visited queue, packaged by `mkGoalItem` for this date, cycle and
discipline. -/
theorem visit_shape (ctx : Ctx) (dateN : Nat) (cid did : String) (target : Nat)
    (q : List QueuedGoal) : ∀ (fuel : Nat) (s : VState),
    ∃ t, (visit ctx dateN cid did target q fuel s).items = s.items ++ t ∧
      ∀ it ∈ t, ∃ pos, ∃ hp : pos < q.length,
        ¬ ctx.completedGoals.contains (q.get ⟨pos, hp⟩).goal.id = true ∧
        it = mkGoalItem ctx.calcDur ctx.userLevel dateN cid did (q.get ⟨pos, hp⟩) := by
  intro fuel
  induction fuel with
  | zero => intro s; exact ⟨[], by simp [visit_zero], by simp⟩
  | succ n ih =>
    intro s
    by_cases h : s.scheduled < target ∧ s.pointer < q.length
    · by_cases hcomp : ctx.completedGoals.contains (q.get ⟨s.pointer, h.2⟩).goal.id = true
      · rw [visit_completed ctx dateN cid did target q n s h hcomp]
        exact ih _
      · rw [Bool.not_eq_true] at hcomp
        by_cases hb : (decide (s.minutes ≥ (resolveDuration ctx.calcDur (q.get ⟨s.pointer, h.2⟩).goal ctx.userLevel : Int)) ||
            (s.itemsToday == 0)) = true
        · rw [visit_place ctx dateN cid did target q n s h hcomp hb]
          obtain ⟨t, ht, hprop⟩ := ih
            { pointer := s.pointer + 1
              scheduled := if (s.lastSub != "" && (q.get ⟨s.pointer, h.2⟩).subjectName == s.lastSub) then s.scheduled else s.scheduled + 1
              lastSub := if (s.lastSub != "" && (q.get ⟨s.pointer, h.2⟩).subjectName == s.lastSub) then s.lastSub else (q.get ⟨s.pointer, h.2⟩).subjectName
              minutes := s.minutes - (resolveDuration ctx.calcDur (q.get ⟨s.pointer, h.2⟩).goal ctx.userLevel : Int)
              items := s.items ++ [mkGoalItem ctx.calcDur ctx.userLevel dateN cid did (q.get ⟨s.pointer, h.2⟩)]
              itemsToday := s.itemsToday + 1
              processed := true
              ptrs := setPtr s.ptrs did (s.pointer + 1) }
          refine ⟨mkGoalItem ctx.calcDur ctx.userLevel dateN cid did (q.get ⟨s.pointer, h.2⟩) :: t, ?_, ?_⟩
          · simpa using ht
          · intro it hit
            rcases List.mem_cons.mp hit with hit | hit
            · exact ⟨s.pointer, h.2, by rw [hcomp]; simp, hit⟩
            · exact hprop it hit
        · rw [Bool.not_eq_true] at hb
          rw [visit_budget ctx dateN cid did target q n s h hcomp hb]
          exact ⟨[], by simp, by simp⟩
    · rw [visit_stop ctx dateN cid did target q n s h]
      exact ⟨[], by simp, by simp⟩

/-- A visit only moves pointers forward. -/
theorem visit_ptrsLe (ctx : Ctx) (dateN : Nat) (cid did : String) (target : Nat)
    (q : List QueuedGoal) : ∀ (fuel : Nat) (s : VState),
    (∀ v, getPtr s.ptrs did = some v → v ≤ s.pointer) →
    PtrsLe s.ptrs (visit ctx dateN cid did target q fuel s).ptrs := by
  intro fuel
  induction fuel with
  | zero => intro s _; rw [visit_zero]; exact PtrsLe.ptrs_refl _
  | succ n ih =>
    intro s hsync
    by_cases h : s.scheduled < target ∧ s.pointer < q.length
    · have hstep : PtrsLe s.ptrs (setPtr s.ptrs did (s.pointer + 1)) :=
        PtrsLe.setPtr_of_le (fun v hv => Nat.le_succ_of_le (hsync v hv))
      have hsync' : ∀ v, getPtr (setPtr s.ptrs did (s.pointer + 1)) did = some v → v ≤ s.pointer + 1 := by
        intro v hv
        rw [getPtr_setPtr_self] at hv
        injection hv with hv
        omega
      by_cases hcomp : ctx.completedGoals.contains (q.get ⟨s.pointer, h.2⟩).goal.id = true
      · rw [visit_completed ctx dateN cid did target q n s h hcomp]
        exact hstep.ptrs_trans
          (ih { s with pointer := s.pointer + 1, ptrs := setPtr s.ptrs did (s.pointer + 1) } hsync')
      · rw [Bool.not_eq_true] at hcomp
        by_cases hb : (decide (s.minutes ≥ (resolveDuration ctx.calcDur (q.get ⟨s.pointer, h.2⟩).goal ctx.userLevel : Int)) ||
            (s.itemsToday == 0)) = true
        · rw [visit_place ctx dateN cid did target q n s h hcomp hb]
          exact hstep.ptrs_trans (ih
            { pointer := s.pointer + 1
              scheduled := if (s.lastSub != "" && (q.get ⟨s.pointer, h.2⟩).subjectName == s.lastSub) then s.scheduled else s.scheduled + 1
              lastSub := if (s.lastSub != "" && (q.get ⟨s.pointer, h.2⟩).subjectName == s.lastSub) then s.lastSub else (q.get ⟨s.pointer, h.2⟩).subjectName
              minutes := s.minutes - (resolveDuration ctx.calcDur (q.get ⟨s.pointer, h.2⟩).goal ctx.userLevel : Int)
              items := s.items ++ [mkGoalItem ctx.calcDur ctx.userLevel dateN cid did (q.get ⟨s.pointer, h.2⟩)]
              itemsToday := s.itemsToday + 1
              processed := true
              ptrs := setPtr s.ptrs did (s.pointer + 1) } hsync')
        · rw [Bool.not_eq_true] at hb
          rw [visit_budget ctx dateN cid did target q n s h hcomp hb]
          exact PtrsLe.ptrs_refl _
    · rw [visit_stop ctx dateN cid did target q n s h]
      exact PtrsLe.ptrs_refl _

/-- A visit entered with no item placed today either appends at least one
item, or changes nothing except skipping completed goals. -/
theorem visit_noplace (ctx : Ctx) (dateN : Nat) (cid did : String) (target : Nat)
    (q : List QueuedGoal) (hq : lookupQueue ctx.plan did = some q) :
    ∀ (fuel : Nat) (s : VState),
    s.itemsToday = 0 →
    (∀ v, getPtr s.ptrs did = some v → v = s.pointer) →
    (∃ t, t ≠ [] ∧ (visit ctx dateN cid did target q fuel s).items = s.items ++ t) ∨
    ((visit ctx dateN cid did target q fuel s).minutes = s.minutes ∧
     (visit ctx dateN cid did target q fuel s).items = s.items ∧
     (visit ctx dateN cid did target q fuel s).itemsToday = s.itemsToday ∧
     (visit ctx dateN cid did target q fuel s).processed = s.processed ∧
     (visit ctx dateN cid did target q fuel s).scheduled = s.scheduled ∧
     SkipStep ctx s.ptrs (visit ctx dateN cid did target q fuel s).ptrs) := by
  intro fuel
  induction fuel with
  | zero =>
    intro s _ _
    rw [visit_zero]
    exact Or.inr ⟨rfl, rfl, rfl, rfl, rfl, SkipStep.skip_refl ctx s.ptrs⟩
  | succ n ih =>
    intro s htoday hsync
    by_cases h : s.scheduled < target ∧ s.pointer < q.length
    · by_cases hcomp : ctx.completedGoals.contains (q.get ⟨s.pointer, h.2⟩).goal.id = true
      · rw [visit_completed ctx dateN cid did target q n s h hcomp]
        have hstep : SkipStep ctx s.ptrs (setPtr s.ptrs did (s.pointer + 1)) := by
          intro k
          by_cases hk : k = did
          · subst hk
            cases hv : getPtr s.ptrs k with
            | none => exact Or.inr (Or.inl rfl)
            | some v =>
              have hv' := hsync v hv
              subst hv'
              refine Or.inr (Or.inr ⟨s.pointer, s.pointer + 1, q, rfl,
                getPtr_setPtr_self s.ptrs k (s.pointer + 1), hq, Nat.le_succ _, ?_⟩)
              intro i hi1 hi2 hilen
              have hieq : i = s.pointer := by omega
              subst hieq
              exact hcomp
          · exact Or.inl (getPtr_setPtr_ne s.ptrs did k (s.pointer + 1) hk)
        have hsync' : ∀ v, getPtr (setPtr s.ptrs did (s.pointer + 1)) did = some v →
            v = s.pointer + 1 := by
          intro v hv
          rw [getPtr_setPtr_self] at hv
          injection hv with hv
          omega
        rcases ih { s with pointer := s.pointer + 1, ptrs := setPtr s.ptrs did (s.pointer + 1) }
            htoday hsync' with ⟨t, htne, ht⟩ | ⟨h1, h2, h3, h4, h5, h6⟩
        · exact Or.inl ⟨t, htne, ht⟩
        · exact Or.inr ⟨h1, h2, h3, h4, h5, hstep.skip_trans h6⟩
      · rw [Bool.not_eq_true] at hcomp
        have hb : (decide (s.minutes ≥ (resolveDuration ctx.calcDur (q.get ⟨s.pointer, h.2⟩).goal ctx.userLevel : Int)) ||
            (s.itemsToday == 0)) = true := by
          simp [htoday]
        rw [visit_place ctx dateN cid did target q n s h hcomp hb]
        obtain ⟨t, ht, -⟩ := visit_shape ctx dateN cid did target q n
          { pointer := s.pointer + 1
            scheduled := if (s.lastSub != "" && (q.get ⟨s.pointer, h.2⟩).subjectName == s.lastSub) then s.scheduled else s.scheduled + 1
            lastSub := if (s.lastSub != "" && (q.get ⟨s.pointer, h.2⟩).subjectName == s.lastSub) then s.lastSub else (q.get ⟨s.pointer, h.2⟩).subjectName
            minutes := s.minutes - (resolveDuration ctx.calcDur (q.get ⟨s.pointer, h.2⟩).goal ctx.userLevel : Int)
            items := s.items ++ [mkGoalItem ctx.calcDur ctx.userLevel dateN cid did (q.get ⟨s.pointer, h.2⟩)]
            itemsToday := s.itemsToday + 1
            processed := true
            ptrs := setPtr s.ptrs did (s.pointer + 1) }
        refine Or.inl ⟨mkGoalItem ctx.calcDur ctx.userLevel dateN cid did (q.get ⟨s.pointer, h.2⟩) :: t,
          by simp, ?_⟩
        simpa using ht
    · rw [visit_stop ctx dateN cid did target q n s h]
      exact Or.inr ⟨rfl, rfl, rfl, rfl, rfl, SkipStep.skip_refl ctx s.ptrs⟩

/-! ## Characterisation of pushed items and the continuous-mode invariant -/

/-- The underlying state of a day-loop step result. -/
def StepRes.state : StepRes → DayState
  | .cont s => s
  | .stop s => s

/-- A goal item as pushed by the walk: it is `mkGoalItem` applied to a
not-yet-completed queued goal of some discipline queue, for a cycle at
index at least `m`. -/
def GoalPushed (ctx : Ctx) (dateN m : Nat) (it : ScheduledItem) : Prop :=
  ∃ i, m ≤ i ∧ ∃ c, ctx.plan.cycles[i]? = some c ∧ ∃ did q,
    lookupQueue ctx.plan did = some q ∧ ∃ pos, ∃ hp : pos < q.length,
      ¬ ctx.completedGoals.contains (q.get ⟨pos, hp⟩).goal.id = true ∧
      it = mkGoalItem ctx.calcDur ctx.userLevel dateN c.id did (q.get ⟨pos, hp⟩)

/-- An exam item as pushed by the walk: `mkExamItem` for an unattempted
exam found in the catalog, referenced by an expanded item of a cycle at
index at least `m`. -/
def ExamPushed (ctx : Ctx) (dateN m : Nat) (it : ScheduledItem) : Prop :=
  ∃ i, m ≤ i ∧ ∃ c, ctx.plan.cycles[i]? = some c ∧ ∃ ci, ci ∈ expandCycleItems c ctx.plan ∧
    ∃ sid, ci.simuladoId = some sid ∧ isSimuladoCompleted sid ctx.userAttempts = false ∧
      ∃ simulado, ctx.allSimulados.find? (fun s => s.id == sid) = some simulado ∧
        it = mkExamItem dateN simulado

/-- Any item pushed by the walk. -/
def Pushed (ctx : Ctx) (dateN m : Nat) (it : ScheduledItem) : Prop :=
  GoalPushed ctx dateN m it ∨ ExamPushed ctx dateN m it

/-- The continuous-mode invariant: every cycle strictly before the current
index is exhausted. -/
def ContInv (ctx : Ctx) (ptrs : List (String × Nat)) (cycleIdx : Nat) : Prop :=
  ∀ j, j < cycleIdx → isCycleExhausted ctx ptrs j = true

/-- Master analysis of one day-loop body iteration after the bounds check:
appended items are `Pushed` from cycle index at least `m`, pointers only
grow, in continuous mode the cycle index only grows and the invariant is
preserved, and the safety counter is untouched. -/
theorem dayStepCore_facts (ctx : Ctx) (dateN : Nat) (st : DayState) (m : Nat)
    (hmle : m ≤ st.cycleIdx) :
    (∃ t, (dayStepCore ctx dateN st).state.items = st.items ++ t ∧
        ∀ it ∈ t, Pushed ctx dateN m it) ∧
    PtrsLe st.ptrs (dayStepCore ctx dateN st).state.ptrs ∧
    m ≤ (dayStepCore ctx dateN st).state.cycleIdx ∧
    (dayStepCore ctx dateN st).state.safety = st.safety ∧
    (ctx.mode = .continuo → ContInv ctx st.ptrs st.cycleIdx →
      ContInv ctx (dayStepCore ctx dateN st).state.ptrs (dayStepCore ctx dateN st).state.cycleIdx) := by
  unfold dayStepCore
  cases hc : ctx.plan.cycles[st.cycleIdx]? with
  | none =>
    simp only [hc, StepRes.state]
    exact ⟨⟨[], by simp, by simp⟩, PtrsLe.ptrs_refl _, hmle, by trivial, fun _ h => h⟩
  | some cycle =>
    simp only [hc]
    by_cases hend : st.itemIdx ≥ (expandCycleItems cycle ctx.plan).length
    · simp only [if_pos hend]
      by_cases hmode : ctx.mode == CycleSystem.continuo
      · simp only [hmode, if_true]
        by_cases hexh : isCycleExhausted ctx st.ptrs st.cycleIdx = true
        · simp only [hexh, if_true, StepRes.state]
          refine ⟨⟨[], by simp, by simp⟩, PtrsLe.ptrs_refl _, by omega, by trivial, fun _ hinv => ?_⟩
          intro j hj
          rcases Nat.lt_succ_iff_lt_or_eq.mp hj with hj | hj
          · exact hinv j hj
          · subst hj; exact hexh
        · simp only [hexh, Bool.false_eq_true, if_false, StepRes.state]
          exact ⟨⟨[], by simp, by simp⟩, PtrsLe.ptrs_refl _, hmle, by trivial, fun _ h => h⟩
      · simp only [hmode, Bool.false_eq_true, if_false, StepRes.state]
        refine ⟨⟨[], by simp, by simp⟩, PtrsLe.ptrs_refl _, by omega, by trivial, fun hcont _ => ?_⟩
        exact absurd (by simp [hcont]) hmode
    · simp only [if_neg hend]
      cases hitem : (expandCycleItems cycle ctx.plan)[st.itemIdx]? with
      | none =>
        simp only [hitem, StepRes.state]
        exact ⟨⟨[], by simp, by simp⟩, PtrsLe.ptrs_refl _, hmle, by trivial, fun _ h => h⟩
      | some cycleItem =>
        simp only [hitem]
        cases hsim : cycleItem.simuladoId with
        | some simId =>
          simp only [hsim]
          by_cases hdone : isSimuladoCompleted simId ctx.userAttempts = true
          · simp only [hdone, if_true, StepRes.state]
            exact ⟨⟨[], by simp, by simp⟩, PtrsLe.ptrs_refl _, hmle, by trivial, fun _ h => h⟩
          · simp only [hdone, Bool.false_eq_true, if_false]
            cases hfind : ctx.allSimulados.find? (fun s => s.id == simId) with
            | none =>
              simp only [hfind, StepRes.state]
              exact ⟨⟨[], by simp, by simp⟩, PtrsLe.ptrs_refl _, hmle, by trivial, fun _ h => h⟩
            | some simulado =>
              simp only [hfind]
              by_cases hbud : (st.itemsToday == 0 || decide (st.minutes > 60)) = true
              · simp only [hbud, if_true, StepRes.state]
                refine ⟨⟨[mkExamItem dateN simulado], by simp, ?_⟩, PtrsLe.ptrs_refl _, hmle, by trivial,
                  fun _ h => h⟩
                intro it hit
                rw [List.mem_singleton] at hit
                subst hit
                refine Or.inr ⟨st.cycleIdx, hmle, cycle, hc, cycleItem, ?_, simId, hsim,
                  Bool.not_eq_true _ ▸ hdone, simulado, hfind, rfl⟩
                exact List.getElem?_mem hitem
              · simp only [hbud, Bool.false_eq_true, if_false, StepRes.state]
                exact ⟨⟨[], by simp, by simp⟩, PtrsLe.ptrs_refl _, hmle, by trivial, fun _ h => h⟩
        | none =>
          simp only [hsim]
          cases hdid : cycleItem.disciplineId with
          | none =>
            simp only [hdid, StepRes.state]
            exact ⟨⟨[], by simp, by simp⟩, PtrsLe.ptrs_refl _, hmle, by trivial, fun _ h => h⟩
          | some did =>
            simp only [hdid]
            cases hq : lookupQueue ctx.plan did with
            | none =>
              simp only [hq, StepRes.state]
              exact ⟨⟨[], by simp, by simp⟩, PtrsLe.ptrs_refl _, hmle, by trivial, fun _ h => h⟩
            | some q =>
              simp only [hq]
              by_cases hptr : (getPtr st.ptrs did).getD 0 ≥ q.length
              · simp only [hptr, if_pos, StepRes.state]
                exact ⟨⟨[], by simp, by simp⟩, PtrsLe.ptrs_refl _, hmle, by trivial, fun _ h => h⟩
              · simp only [if_neg hptr]
                have hsyncle : ∀ v, getPtr st.ptrs did = some v →
                    v ≤ (getPtr st.ptrs did).getD 0 := by
                  intro v hv; simp [hv]
                have hple := visit_ptrsLe ctx dateN cycle.id did cycleItem.subjectsCount q
                  (q.length + 1)
                  { pointer := (getPtr st.ptrs did).getD 0, scheduled := 0, lastSub := ""
                    minutes := st.minutes, items := st.items, itemsToday := st.itemsToday
                    processed := false, ptrs := st.ptrs } hsyncle
                obtain ⟨t, ht, hprop⟩ := visit_shape ctx dateN cycle.id did
                  cycleItem.subjectsCount q (q.length + 1)
                  { pointer := (getPtr st.ptrs did).getD 0, scheduled := 0, lastSub := ""
                    minutes := st.minutes, items := st.items, itemsToday := st.itemsToday
                    processed := false, ptrs := st.ptrs }
                have hpushed : ∀ it ∈ t, Pushed ctx dateN m it := by
                  intro it hit
                  obtain ⟨pos, hp, hunc, heq⟩ := hprop it hit
                  exact Or.inl ⟨st.cycleIdx, hmle, cycle, hc, did, q, hq, pos, hp, hunc, heq⟩
                have hcontpres : ctx.mode = .continuo → ContInv ctx st.ptrs st.cycleIdx →
                    ContInv ctx (visit ctx dateN cycle.id did cycleItem.subjectsCount q
                      (q.length + 1)
                      { pointer := (getPtr st.ptrs did).getD 0, scheduled := 0, lastSub := ""
                        minutes := st.minutes, items := st.items, itemsToday := st.itemsToday
                        processed := false, ptrs := st.ptrs }).ptrs st.cycleIdx := by
                  intro _ hinv j hj
                  exact isCycleExhausted_mono ctx hple j (hinv j hj)
                by_cases hdone2 : (decide ((visit ctx dateN cycle.id did cycleItem.subjectsCount q
                    (q.length + 1)
                    { pointer := (getPtr st.ptrs did).getD 0, scheduled := 0, lastSub := ""
                      minutes := st.minutes, items := st.items, itemsToday := st.itemsToday
                      processed := false, ptrs := st.ptrs }).scheduled ≥ cycleItem.subjectsCount) ||
                    decide ((visit ctx dateN cycle.id did cycleItem.subjectsCount q
                    (q.length + 1)
                    { pointer := (getPtr st.ptrs did).getD 0, scheduled := 0, lastSub := ""
                      minutes := st.minutes, items := st.items, itemsToday := st.itemsToday
                      processed := false, ptrs := st.ptrs }).pointer ≥ q.length)) = true
                · simp only [hdone2, if_true, StepRes.state]
                  exact ⟨⟨t, ht, hpushed⟩, hple, hmle, by trivial, fun hmode hinv => hcontpres hmode hinv⟩
                · simp only [hdone2, Bool.false_eq_true, if_false]
                  by_cases hstop : (!(visit ctx dateN cycle.id did cycleItem.subjectsCount q
                      (q.length + 1)
                      { pointer := (getPtr st.ptrs did).getD 0, scheduled := 0, lastSub := ""
                        minutes := st.minutes, items := st.items, itemsToday := st.itemsToday
                        processed := false, ptrs := st.ptrs }).processed &&
                      decide ((visit ctx dateN cycle.id did cycleItem.subjectsCount q
                      (q.length + 1)
                      { pointer := (getPtr st.ptrs did).getD 0, scheduled := 0, lastSub := ""
                        minutes := st.minutes, items := st.items, itemsToday := st.itemsToday
                        processed := false, ptrs := st.ptrs }).minutes ≤ 0)) = true
                  · simp only [hstop, if_true, StepRes.state]
                    exact ⟨⟨t, ht, hpushed⟩, hple, hmle, by trivial, fun hmode hinv => hcontpres hmode hinv⟩
                  · simp only [hstop, Bool.false_eq_true, if_false, StepRes.state]
                    exact ⟨⟨t, ht, hpushed⟩, hple, hmle, by trivial, fun hmode hinv => hcontpres hmode hinv⟩

/-- Lift of `dayStepCore_facts` across the cycle-bounds check. -/
theorem dayStep_facts (ctx : Ctx) (dateN : Nat) (st : DayState) (m : Nat)
    (hm : ctx.mode = .continuo → m ≤ st.cycleIdx)
    (hm0 : ctx.mode = .rotativo → m = 0) :
    (∃ t, (dayStep ctx dateN st).state.items = st.items ++ t ∧
        ∀ it ∈ t, Pushed ctx dateN m it) ∧
    PtrsLe st.ptrs (dayStep ctx dateN st).state.ptrs ∧
    m ≤ (dayStep ctx dateN st).state.cycleIdx ∧
    (dayStep ctx dateN st).state.safety = st.safety ∧
    (ctx.mode = .continuo → ContInv ctx st.ptrs st.cycleIdx →
      ContInv ctx (dayStep ctx dateN st).state.ptrs (dayStep ctx dateN st).state.cycleIdx) := by
  have hmle : m ≤ st.cycleIdx := by
    cases hmode : ctx.mode with
    | continuo => exact hm hmode
    | rotativo => rw [hm0 hmode]; omega
  unfold dayStep
  by_cases hb : st.cycleIdx ≥ ctx.plan.cycles.length
  · simp only [if_pos hb]
    by_cases hrot : ctx.mode == CycleSystem.rotativo
    · simp only [hrot, if_true]
      have hrot' : ctx.mode = .rotativo := by
        rwa [beq_iff_eq] at hrot
      obtain ⟨hitems, hptrs, hcyc, hsafe, _⟩ :=
        dayStepCore_facts ctx dateN { st with cycleIdx := 0 } m (by simp [hm0 hrot'])
      refine ⟨hitems, hptrs, hcyc, hsafe, fun hmode _ => ?_⟩
      rw [hmode] at hrot'
      exact absurd hrot' (by simp)
    · simp only [hrot, Bool.false_eq_true, if_false, StepRes.state]
      exact ⟨⟨[], by simp, by simp⟩, PtrsLe.ptrs_refl _, hmle, by trivial, fun _ h => h⟩
  · simp only [if_neg hb]
    exact dayStepCore_facts ctx dateN st m hmle

/-! ## Step equations for the day loop -/

theorem dayLoop_zero (ctx : Ctx) (dateN : Nat) (st : DayState) :
    dayLoop ctx dateN 0 st = st := rfl

theorem dayLoop_done (ctx : Ctx) (dateN : Nat) (n : Nat) (st : DayState)
    (h : st.minutes ≤ 0) : dayLoop ctx dateN (n + 1) st = st := by
  rw [dayLoop, if_pos h]

theorem dayLoop_cont (ctx : Ctx) (dateN : Nat) (n : Nat) (st s : DayState)
    (h : ¬ st.minutes ≤ 0)
    (hstep : dayStep ctx dateN { st with safety := st.safety + 1 } = .cont s) :
    dayLoop ctx dateN (n + 1) st = dayLoop ctx dateN n s := by
  rw [dayLoop, if_neg h, hstep]

theorem dayLoop_stop (ctx : Ctx) (dateN : Nat) (n : Nat) (st s : DayState)
    (h : ¬ st.minutes ≤ 0)
    (hstep : dayStep ctx dateN { st with safety := st.safety + 1 } = .stop s) :
    dayLoop ctx dateN (n + 1) st = s := by
  rw [dayLoop, if_neg h, hstep]

/-- Day-loop closure of the step facts: appended items are `Pushed`,
pointers grow, the cycle index stays at least `m`, and the continuous-mode
invariant is preserved. -/
theorem dayLoop_facts (ctx : Ctx) (dateN : Nat) : ∀ (fuel : Nat) (st : DayState) (m : Nat),
    (ctx.mode = .continuo → m ≤ st.cycleIdx) →
    (ctx.mode = .rotativo → m = 0) →
    (∃ t, (dayLoop ctx dateN fuel st).items = st.items ++ t ∧
        ∀ it ∈ t, Pushed ctx dateN m it) ∧
    PtrsLe st.ptrs (dayLoop ctx dateN fuel st).ptrs ∧
    m ≤ (dayLoop ctx dateN fuel st).cycleIdx ∧
    (ctx.mode = .continuo → ContInv ctx st.ptrs st.cycleIdx →
      ContInv ctx (dayLoop ctx dateN fuel st).ptrs (dayLoop ctx dateN fuel st).cycleIdx) := by
  intro fuel
  induction fuel with
  | zero =>
    intro st m hm hm0
    have hmle : m ≤ st.cycleIdx := by
      cases hmode : ctx.mode with
      | continuo => exact hm hmode
      | rotativo => rw [hm0 hmode]; omega
    rw [dayLoop_zero]
    exact ⟨⟨[], by simp, by simp⟩, PtrsLe.ptrs_refl _, hmle, fun _ h => h⟩
  | succ n ih =>
    intro st m hm hm0
    have hmle : m ≤ st.cycleIdx := by
      cases hmode : ctx.mode with
      | continuo => exact hm hmode
      | rotativo => rw [hm0 hmode]; omega
    by_cases hmin : st.minutes ≤ 0
    · rw [dayLoop_done ctx dateN n st hmin]
      exact ⟨⟨[], by simp, by simp⟩, PtrsLe.ptrs_refl _, hmle, fun _ h => h⟩
    · have hfacts := dayStep_facts ctx dateN { st with safety := st.safety + 1 } m hm hm0
      cases hstep : dayStep ctx dateN { st with safety := st.safety + 1 } with
      | stop s =>
        rw [dayLoop_stop ctx dateN n st s hmin hstep]
        rw [hstep] at hfacts
        simp only [StepRes.state] at hfacts
        exact ⟨hfacts.1, hfacts.2.1, hfacts.2.2.1, fun hmode hinv => hfacts.2.2.2.2 hmode hinv⟩
      | cont s =>
        rw [dayLoop_cont ctx dateN n st s hmin hstep]
        rw [hstep] at hfacts
        simp only [StepRes.state] at hfacts
        obtain ⟨⟨t, hts, htprop⟩, hple, hcyc, _, hcinv⟩ := hfacts
        obtain ⟨⟨t', hts', htprop'⟩, hple', hcyc', hcinv'⟩ :=
          ih s m (fun hmode => hcyc) hm0
        refine ⟨⟨t ++ t', ?_, ?_⟩, hple.ptrs_trans hple', hcyc',
          fun hmode hinv => hcinv' hmode (hcinv hmode hinv)⟩
        · rw [hts', hts]
          simp [List.append_assoc]
        · intro it hit
          rcases List.mem_append.mp hit with hit | hit
          · exact htprop it hit
          · exact htprop' it hit

/-- One body iteration, entered with a positive budget and nothing placed
today: either the resulting state already carries an item, or the iteration
only adjusted indices and skipped completed content (a `cont` with
unchanged budget and a skip-only pointer move).  The cycle index is assumed
in bounds (the caller checked it). -/
theorem dayStepCore_noplace (ctx : Ctx) (dateN : Nat) (st : DayState)
    (hmin : 0 < st.minutes) (htoday : st.itemsToday = 0) (hitems : st.items = [])
    (hlt : st.cycleIdx < ctx.plan.cycles.length) :
    (dayStepCore ctx dateN st).state.items ≠ [] ∨
    (∃ s', dayStepCore ctx dateN st = .cont s' ∧ s'.items = [] ∧ s'.minutes = st.minutes ∧
      s'.itemsToday = 0 ∧ SkipStep ctx st.ptrs s'.ptrs) := by
  unfold dayStepCore
  cases hc : ctx.plan.cycles[st.cycleIdx]? with
  | none =>
    have hsome := List.getElem?_eq_getElem hlt
    rw [hsome] at hc
    exact absurd hc (by simp)
  | some cycle =>
    simp only [hc]
    by_cases hend : st.itemIdx ≥ (expandCycleItems cycle ctx.plan).length
    · simp only [if_pos hend]
      by_cases hmode : ctx.mode == CycleSystem.continuo
      · simp only [hmode, if_true]
        by_cases hexh : isCycleExhausted ctx st.ptrs st.cycleIdx = true
        · simp only [hexh, if_true]
          exact Or.inr ⟨_, rfl, hitems, rfl, htoday, SkipStep.skip_refl ctx st.ptrs⟩
        · simp only [hexh, Bool.false_eq_true, if_false]
          exact Or.inr ⟨_, rfl, hitems, rfl, htoday, SkipStep.skip_refl ctx st.ptrs⟩
      · simp only [hmode, Bool.false_eq_true, if_false]
        exact Or.inr ⟨_, rfl, hitems, rfl, htoday, SkipStep.skip_refl ctx st.ptrs⟩
    · simp only [if_neg hend]
      cases hitem : (expandCycleItems cycle ctx.plan)[st.itemIdx]? with
      | none =>
        simp only [hitem]
        exact Or.inr ⟨_, rfl, hitems, rfl, htoday, SkipStep.skip_refl ctx st.ptrs⟩
      | some cycleItem =>
        simp only [hitem]
        cases hsim : cycleItem.simuladoId with
        | some simId =>
          simp only [hsim]
          by_cases hdone : isSimuladoCompleted simId ctx.userAttempts = true
          · simp only [hdone, if_true]
            exact Or.inr ⟨_, rfl, hitems, rfl, htoday, SkipStep.skip_refl ctx st.ptrs⟩
          · simp only [hdone, Bool.false_eq_true, if_false]
            cases hfind : ctx.allSimulados.find? (fun s => s.id == simId) with
            | none =>
              simp only [hfind]
              exact Or.inr ⟨_, rfl, hitems, rfl, htoday, SkipStep.skip_refl ctx st.ptrs⟩
            | some simulado =>
              simp only [hfind]
              have hbud : (st.itemsToday == 0 || decide (st.minutes > 60)) = true := by
                simp [htoday]
              simp only [hbud, if_true, StepRes.state]
              exact Or.inl (by simp)
        | none =>
          simp only [hsim]
          cases hdid : cycleItem.disciplineId with
          | none =>
            simp only [hdid]
            exact Or.inr ⟨_, rfl, hitems, rfl, htoday, SkipStep.skip_refl ctx st.ptrs⟩
          | some did =>
            simp only [hdid]
            cases hq : lookupQueue ctx.plan did with
            | none =>
              simp only [hq]
              exact Or.inr ⟨_, rfl, hitems, rfl, htoday, SkipStep.skip_refl ctx st.ptrs⟩
            | some q =>
              simp only [hq]
              by_cases hptr : (getPtr st.ptrs did).getD 0 ≥ q.length
              · simp only [hptr, if_pos]
                exact Or.inr ⟨_, rfl, hitems, rfl, htoday, SkipStep.skip_refl ctx st.ptrs⟩
              · simp only [if_neg hptr]
                have hsync : ∀ v, getPtr st.ptrs did = some v →
                    v = (getPtr st.ptrs did).getD 0 := by
                  intro v hv; simp [hv]
                rcases visit_noplace ctx dateN cycle.id did cycleItem.subjectsCount q hq
                    (q.length + 1)
                    { pointer := (getPtr st.ptrs did).getD 0, scheduled := 0, lastSub := ""
                      minutes := st.minutes, items := st.items, itemsToday := st.itemsToday
                      processed := false, ptrs := st.ptrs } htoday hsync with
                  ⟨t, htne, ht⟩ | ⟨hvmin, hvitems, hvtoday, hvproc, hvsched, hvskip⟩
                · have hne : (visit ctx dateN cycle.id did cycleItem.subjectsCount q
                      (q.length + 1)
                      { pointer := (getPtr st.ptrs did).getD 0, scheduled := 0, lastSub := ""
                        minutes := st.minutes, items := st.items, itemsToday := st.itemsToday
                        processed := false, ptrs := st.ptrs }).items ≠ [] := by
                    rw [ht]
                    simp [htne]
                  split
                  · exact Or.inl hne
                  · split
                    · exact Or.inl hne
                    · exact Or.inl hne
                · have hstop : (!(visit ctx dateN cycle.id did cycleItem.subjectsCount q
                      (q.length + 1)
                      { pointer := (getPtr st.ptrs did).getD 0, scheduled := 0, lastSub := ""
                        minutes := st.minutes, items := st.items, itemsToday := st.itemsToday
                        processed := false, ptrs := st.ptrs }).processed &&
                      decide ((visit ctx dateN cycle.id did cycleItem.subjectsCount q
                      (q.length + 1)
                      { pointer := (getPtr st.ptrs did).getD 0, scheduled := 0, lastSub := ""
                        minutes := st.minutes, items := st.items, itemsToday := st.itemsToday
                        processed := false, ptrs := st.ptrs }).minutes ≤ 0)) = false := by
                    rw [hvmin]
                    simp only [Bool.and_eq_false_iff]
                    right
                    simpa using hmin
                  split
                  · exact Or.inr ⟨_, rfl, hvitems.trans hitems, by simpa using hvmin,
                      hvtoday.trans htoday, hvskip⟩
                  · simp only [hstop, Bool.false_eq_true, if_false]
                    exact Or.inr ⟨_, rfl, hvitems.trans hitems, by simpa using hvmin,
                      hvtoday.trans htoday, hvskip⟩

/-- `dayStepCore_noplace` lifted across the bounds check: the continuous
run-over `break` is impossible while some cycle still has content, thanks
to the continuous-mode invariant. -/
theorem dayStep_noplace (ctx : Ctx) (dateN : Nat) (st : DayState)
    (hmin : 0 < st.minutes) (htoday : st.itemsToday = 0) (hitems : st.items = [])
    (hinv : ctx.mode = .continuo → ContInv ctx st.ptrs st.cycleIdx)
    (hcontent : ∃ j, j < ctx.plan.cycles.length ∧ cycleHasContent ctx st.ptrs j = true) :
    (dayStep ctx dateN st).state.items ≠ [] ∨
    (∃ s', dayStep ctx dateN st = .cont s' ∧ s'.items = [] ∧ s'.minutes = st.minutes ∧
      s'.itemsToday = 0 ∧ SkipStep ctx st.ptrs s'.ptrs) := by
  obtain ⟨j, hjlen, hjcont⟩ := hcontent
  unfold dayStep
  by_cases hb : st.cycleIdx ≥ ctx.plan.cycles.length
  · simp only [if_pos hb]
    by_cases hrot : ctx.mode == CycleSystem.rotativo
    · simp only [hrot, if_true]
      exact dayStepCore_noplace ctx dateN { st with cycleIdx := 0 } hmin htoday hitems
        (show 0 < ctx.plan.cycles.length by omega)
    · simp only [hrot, Bool.false_eq_true, if_false]
      have hmode : ctx.mode = .continuo := by
        cases hmode : ctx.mode with
        | continuo => rfl
        | rotativo => rw [hmode] at hrot; simp at hrot
      have hexh : isCycleExhausted ctx st.ptrs j = true := hinv hmode j (by omega)
      have := not_content_of_exhausted ctx st.ptrs j hexh
      rw [this] at hjcont
      exact absurd hjcont (by simp)
  · simp only [if_neg hb]
    exact dayStepCore_noplace ctx dateN st hmin htoday hitems (by omega)

/-- The day loop always extends the item list. -/
theorem dayLoop_extends (ctx : Ctx) (dateN : Nat) (fuel : Nat) (st : DayState)
    (h : st.items ≠ []) : (dayLoop ctx dateN fuel st).items ≠ [] := by
  obtain ⟨t, ht, -⟩ := (dayLoop_facts ctx dateN fuel st 0 (fun _ => Nat.zero_le _)
    (fun _ => rfl)).1
  rw [ht]
  simp [h]

/-- Key day-level theorem behind the at-least-one-per-day property: a day
entered with a positive budget, nothing placed yet, remaining content in
some cycle, and (in continuous mode) the invariant, either produces an item
or exhausts the 500-iteration safety cap. -/
theorem dayLoop_places_or_cap (ctx : Ctx) (dateN : Nat) : ∀ (fuel : Nat) (st : DayState),
    fuel + st.safety = 500 →
    0 < st.minutes →
    st.itemsToday = 0 →
    st.items = [] →
    (ctx.mode = .continuo → ContInv ctx st.ptrs st.cycleIdx) →
    (∃ j, j < ctx.plan.cycles.length ∧ cycleHasContent ctx st.ptrs j = true) →
    (dayLoop ctx dateN fuel st).items ≠ [] ∨ (dayLoop ctx dateN fuel st).safety = 500 := by
  intro fuel
  induction fuel with
  | zero =>
    intro st hfs hmin htoday hitems hinv hcontent
    rw [dayLoop_zero]
    omega
  | succ n ih =>
    intro st hfs hmin htoday hitems hinv hcontent
    have hminle : ¬ st.minutes ≤ 0 := by omega
    have hst1 : ({ st with safety := st.safety + 1 } : DayState).items = [] := hitems
    rcases dayStep_noplace ctx dateN { st with safety := st.safety + 1 } hmin htoday hst1
        hinv hcontent with hne | ⟨s', hstep, hsitems, hsmin, hstoday, hskip⟩
    · cases hstep : dayStep ctx dateN { st with safety := st.safety + 1 } with
      | stop s =>
        rw [dayLoop_stop ctx dateN n st s hminle hstep]
        rw [hstep] at hne
        exact Or.inl hne
      | cont s =>
        rw [dayLoop_cont ctx dateN n st s hminle hstep]
        rw [hstep] at hne
        exact Or.inl (dayLoop_extends ctx dateN n s hne)
    · rw [dayLoop_cont ctx dateN n st s' hminle hstep]
      have hfacts := dayStep_facts ctx dateN { st with safety := st.safety + 1 } 0
        (fun _ => Nat.zero_le _) (fun _ => rfl)
      rw [hstep] at hfacts
      simp only [StepRes.state] at hfacts
      have hsafe : s'.safety = st.safety + 1 := hfacts.2.2.2.1
      have hinv' : ctx.mode = .continuo → ContInv ctx s'.ptrs s'.cycleIdx := by
        intro hmode
        exact hfacts.2.2.2.2 hmode (hinv hmode)
      have hcontent' : ∃ j, j < ctx.plan.cycles.length ∧ cycleHasContent ctx s'.ptrs j = true := by
        obtain ⟨j, hjlen, hjcont⟩ := hcontent
        exact ⟨j, hjlen, cycleHasContent_skip ctx hskip j hjcont⟩
      have hsmin' : s'.minutes = st.minutes := hsmin
      exact ih s' (by omega) (by omega) hstoday hsitems hinv' hcontent'

/-! ## At most one exam per day, always final -/

/-- One body iteration appends either only goal items, or exactly one exam
item while zeroing the remaining budget. -/
theorem dayStepCore_exam (ctx : Ctx) (dateN : Nat) (st : DayState) :
    ∃ t, (dayStepCore ctx dateN st).state.items = st.items ++ t ∧
      ((∀ it ∈ t, it.simuladoData = none) ∨
       (∃ e, t = [e] ∧ e.simuladoData.isSome ∧ (dayStepCore ctx dateN st).state.minutes ≤ 0)) := by
  unfold dayStepCore
  cases hc : ctx.plan.cycles[st.cycleIdx]? with
  | none => exact ⟨[], by simp [StepRes.state], Or.inl (by simp)⟩
  | some cycle =>
    simp only [hc]
    by_cases hend : st.itemIdx ≥ (expandCycleItems cycle ctx.plan).length
    · simp only [if_pos hend]
      by_cases hmode : ctx.mode == CycleSystem.continuo
      · simp only [hmode, if_true]
        by_cases hexh : isCycleExhausted ctx st.ptrs st.cycleIdx = true
        · simp only [hexh, if_true, StepRes.state]
          exact ⟨[], by simp, Or.inl (by simp)⟩
        · simp only [hexh, Bool.false_eq_true, if_false, StepRes.state]
          exact ⟨[], by simp, Or.inl (by simp)⟩
      · simp only [hmode, Bool.false_eq_true, if_false, StepRes.state]
        exact ⟨[], by simp, Or.inl (by simp)⟩
    · simp only [if_neg hend]
      cases hitem : (expandCycleItems cycle ctx.plan)[st.itemIdx]? with
      | none =>
        simp only [hitem, StepRes.state]
        exact ⟨[], by simp, Or.inl (by simp)⟩
      | some cycleItem =>
        simp only [hitem]
        cases hsim : cycleItem.simuladoId with
        | some simId =>
          simp only [hsim]
          by_cases hdone : isSimuladoCompleted simId ctx.userAttempts = true
          · simp only [hdone, if_true, StepRes.state]
            exact ⟨[], by simp, Or.inl (by simp)⟩
          · simp only [hdone, Bool.false_eq_true, if_false]
            cases hfind : ctx.allSimulados.find? (fun s => s.id == simId) with
            | none =>
              simp only [hfind, StepRes.state]
              exact ⟨[], by simp, Or.inl (by simp)⟩
            | some simulado =>
              simp only [hfind]
              by_cases hbud : (st.itemsToday == 0 || decide (st.minutes > 60)) = true
              · simp only [hbud, if_true, StepRes.state]
                exact ⟨[mkExamItem dateN simulado], by simp,
                  Or.inr ⟨mkExamItem dateN simulado, rfl, by simp [mkExamItem], by simp⟩⟩
              · simp only [hbud, Bool.false_eq_true, if_false, StepRes.state]
                exact ⟨[], by simp, Or.inl (by simp)⟩
        | none =>
          simp only [hsim]
          cases hdid : cycleItem.disciplineId with
          | none =>
            simp only [hdid, StepRes.state]
            exact ⟨[], by simp, Or.inl (by simp)⟩
          | some did =>
            simp only [hdid]
            cases hq : lookupQueue ctx.plan did with
            | none =>
              simp only [hq, StepRes.state]
              exact ⟨[], by simp, Or.inl (by simp)⟩
            | some q =>
              simp only [hq]
              by_cases hptr : (getPtr st.ptrs did).getD 0 ≥ q.length
              · simp only [hptr, if_pos, StepRes.state]
                exact ⟨[], by simp, Or.inl (by simp)⟩
              · simp only [if_neg hptr]
                obtain ⟨t, ht, hprop⟩ := visit_shape ctx dateN cycle.id did
                  cycleItem.subjectsCount q (q.length + 1)
                  { pointer := (getPtr st.ptrs did).getD 0, scheduled := 0, lastSub := ""
                    minutes := st.minutes, items := st.items, itemsToday := st.itemsToday
                    processed := false, ptrs := st.ptrs }
                have hnoexam : ∀ it ∈ t, it.simuladoData = none := by
                  intro it hit
                  obtain ⟨pos, hp, -, heq⟩ := hprop it hit
                  rw [heq]
                  simp [mkGoalItem]
                split
                · exact ⟨t, by simpa using ht, Or.inl hnoexam⟩
                · split
                  · exact ⟨t, by simpa using ht, Or.inl hnoexam⟩
                  · exact ⟨t, by simpa using ht, Or.inl hnoexam⟩

/-- `dayStepCore_exam` lifted across the bounds check. -/
theorem dayStep_exam (ctx : Ctx) (dateN : Nat) (st : DayState) :
    ∃ t, (dayStep ctx dateN st).state.items = st.items ++ t ∧
      ((∀ it ∈ t, it.simuladoData = none) ∨
       (∃ e, t = [e] ∧ e.simuladoData.isSome ∧ (dayStep ctx dateN st).state.minutes ≤ 0)) := by
  unfold dayStep
  by_cases hb : st.cycleIdx ≥ ctx.plan.cycles.length
  · simp only [if_pos hb]
    by_cases hrot : ctx.mode == CycleSystem.rotativo
    · simp only [hrot, if_true]
      exact dayStepCore_exam ctx dateN { st with cycleIdx := 0 }
    · simp only [hrot, Bool.false_eq_true, if_false, StepRes.state]
      exact ⟨[], by simp, Or.inl (by simp)⟩
  · simp only [if_neg hb]
    exact dayStepCore_exam ctx dateN st

/-- A day loop entered with an exhausted budget does nothing. -/
theorem dayLoop_min0 (ctx : Ctx) (dateN : Nat) (fuel : Nat) (st : DayState)
    (h : st.minutes ≤ 0) : dayLoop ctx dateN fuel st = st := by
  cases fuel with
  | zero => rfl
  | succ n => exact dayLoop_done ctx dateN n st h

/-- Over a whole day: the produced item list either contains no exam item,
or ends with its unique exam item. -/
theorem dayLoop_exam_last (ctx : Ctx) (dateN : Nat) : ∀ (fuel : Nat) (st : DayState),
    (∀ it ∈ st.items, it.simuladoData = none) →
    (∀ it ∈ (dayLoop ctx dateN fuel st).items, it.simuladoData = none) ∨
    (∃ pre e, (dayLoop ctx dateN fuel st).items = pre ++ [e] ∧
      (∀ it ∈ pre, it.simuladoData = none) ∧ e.simuladoData.isSome) := by
  intro fuel
  induction fuel with
  | zero =>
    intro st hne
    rw [dayLoop_zero]
    exact Or.inl hne
  | succ n ih =>
    intro st hne
    by_cases hmin : st.minutes ≤ 0
    · rw [dayLoop_done ctx dateN n st hmin]
      exact Or.inl hne
    · obtain ⟨t, ht, hcases⟩ := dayStep_exam ctx dateN { st with safety := st.safety + 1 }
      rcases hcases with hgoal | ⟨e, hte, hexam, hmin0⟩
      · have hne' : ∀ it ∈ (dayStep ctx dateN { st with safety := st.safety + 1 }).state.items,
            it.simuladoData = none := by
          rw [ht]
          intro it hit
          rcases List.mem_append.mp hit with hit | hit
          · exact hne it hit
          · exact hgoal it hit
        cases hstep : dayStep ctx dateN { st with safety := st.safety + 1 } with
        | stop s =>
          rw [dayLoop_stop ctx dateN n st s hmin hstep]
          rw [hstep] at hne'
          exact Or.inl hne'
        | cont s =>
          rw [dayLoop_cont ctx dateN n st s hmin hstep]
          rw [hstep] at hne'
          exact ih s hne'
      · cases hstep : dayStep ctx dateN { st with safety := st.safety + 1 } with
        | stop s =>
          rw [dayLoop_stop ctx dateN n st s hmin hstep]
          rw [hstep] at ht
          simp only [StepRes.state] at ht
          rw [hte] at ht
          exact Or.inr ⟨st.items, e, ht, hne, hexam⟩
        | cont s =>
          rw [dayLoop_cont ctx dateN n st s hmin hstep]
          rw [hstep] at ht hmin0
          simp only [StepRes.state] at ht hmin0
          rw [dayLoop_min0 ctx dateN n s hmin0]
          rw [hte] at ht
          exact Or.inr ⟨st.items, e, ht, hne, hexam⟩

/-! ## Run-level lemmas -/

/-- The per-day entry state of a day with availability. -/
def dayEntry (ctx : Ctx) (rs : RunState) (dayOffset : Nat) : DayState :=
  { cycleIdx := rs.cycleIdx, itemIdx := rs.itemIdx, ptrs := rs.ptrs
    minutes := (routineGet ctx.routine (getDayName (ctx.startDate + dayOffset)) : Int)
    items := [], itemsToday := 0, safety := 0 }

theorem processDay_skip (ctx : Ctx) (rs : RunState) (k : Nat)
    (h : routineGet ctx.routine (getDayName (ctx.startDate + k)) = 0) :
    processDay ctx rs k = (none, rs) := by
  unfold processDay
  simp [h]

theorem processDay_run (ctx : Ctx) (rs : RunState) (k : Nat)
    (h : routineGet ctx.routine (getDayName (ctx.startDate + k)) ≠ 0) :
    processDay ctx rs k =
      ((if (dayLoop ctx (ctx.startDate + k) 500 (dayEntry ctx rs k)).items.isEmpty then none
        else some (ctx.startDate + k, (dayLoop ctx (ctx.startDate + k) 500 (dayEntry ctx rs k)).items)),
       { cycleIdx := (dayLoop ctx (ctx.startDate + k) 500 (dayEntry ctx rs k)).cycleIdx
         itemIdx := (dayLoop ctx (ctx.startDate + k) 500 (dayEntry ctx rs k)).itemIdx
         ptrs := (dayLoop ctx (ctx.startDate + k) 500 (dayEntry ctx rs k)).ptrs }) := by
  unfold processDay dayEntry
  have h' : ¬ ((routineGet ctx.routine (getDayName (ctx.startDate + k)) : Int) == 0) = true := by
    simpa using h
  simp only [h', Bool.false_eq_true, if_false]

/-- Unfolding of the walk at a day with availability that produces items. -/
theorem runFrom_cons_run (ctx : Ctx) (rs : RunState) (k : Nat) (ks : List Nat)
    (hmin : routineGet ctx.routine (getDayName (ctx.startDate + k)) ≠ 0)
    (hne : (dayLoop ctx (ctx.startDate + k) 500 (dayEntry ctx rs k)).items ≠ []) :
    runFrom ctx rs (k :: ks) =
      (ctx.startDate + k, (dayLoop ctx (ctx.startDate + k) 500 (dayEntry ctx rs k)).items) ::
        runFrom ctx
          { cycleIdx := (dayLoop ctx (ctx.startDate + k) 500 (dayEntry ctx rs k)).cycleIdx
            itemIdx := (dayLoop ctx (ctx.startDate + k) 500 (dayEntry ctx rs k)).itemIdx
            ptrs := (dayLoop ctx (ctx.startDate + k) 500 (dayEntry ctx rs k)).ptrs } ks := by
  have hf : (dayLoop ctx (ctx.startDate + k) 500 (dayEntry ctx rs k)).items.isEmpty = false := by
    simpa using hne
  rw [runFrom, processDay_run ctx rs k hmin, hf]
  simp

/-- Unfolding of the walk at a day with availability that produces no
items: the day is dropped from the output. -/
theorem runFrom_cons_empty (ctx : Ctx) (rs : RunState) (k : Nat) (ks : List Nat)
    (hmin : routineGet ctx.routine (getDayName (ctx.startDate + k)) ≠ 0)
    (hemp : (dayLoop ctx (ctx.startDate + k) 500 (dayEntry ctx rs k)).items = []) :
    runFrom ctx rs (k :: ks) =
      runFrom ctx
        { cycleIdx := (dayLoop ctx (ctx.startDate + k) 500 (dayEntry ctx rs k)).cycleIdx
          itemIdx := (dayLoop ctx (ctx.startDate + k) 500 (dayEntry ctx rs k)).itemIdx
          ptrs := (dayLoop ctx (ctx.startDate + k) 500 (dayEntry ctx rs k)).ptrs } ks := by
  have hf : (dayLoop ctx (ctx.startDate + k) 500 (dayEntry ctx rs k)).items.isEmpty = true := by
    simp [hemp]
  rw [runFrom, processDay_run ctx rs k hmin, hf]
  simp

/-- Every entry of the walk output belongs to one of the processed days,
carries that day's date, and is exactly the non-empty item list computed by
that day's loop from the entry state reached at that day. -/
theorem runFrom_entries (ctx : Ctx) : ∀ (ks : List Nat) (rs : RunState) (e : Nat × List ScheduledItem),
    e ∈ runFrom ctx rs ks →
    ∃ k, k ∈ ks ∧ e.1 = ctx.startDate + k ∧
      routineGet ctx.routine (getDayName (ctx.startDate + k)) ≠ 0 ∧
      ∃ rs₀ : RunState,
        e.2 = (dayLoop ctx (ctx.startDate + k) 500 (dayEntry ctx rs₀ k)).items ∧
        e.2 ≠ [] := by
  intro ks
  induction ks with
  | nil => intro rs e he; simp [runFrom] at he
  | cons k ks ih =>
    intro rs e he
    rw [runFrom] at he
    by_cases h : routineGet ctx.routine (getDayName (ctx.startDate + k)) = 0
    · rw [processDay_skip ctx rs k h] at he
      obtain ⟨k', hk', rest⟩ := ih rs e he
      exact ⟨k', List.mem_cons_of_mem k hk', rest⟩
    · rw [processDay_run ctx rs k h] at he
      by_cases hemp : (dayLoop ctx (ctx.startDate + k) 500 (dayEntry ctx rs k)).items.isEmpty
      · rw [if_pos hemp] at he
        obtain ⟨k', hk', rest⟩ := ih _ e he
        exact ⟨k', List.mem_cons_of_mem k hk', rest⟩
      · rw [if_neg hemp] at he
        rcases List.mem_cons.mp he with he | he
        · subst he
          refine ⟨k, List.mem_cons_self k ks, rfl, h, rs, rfl, ?_⟩
          simpa [List.isEmpty_iff] using hemp
        · obtain ⟨k', hk', rest⟩ := ih _ e he
          exact ⟨k', List.mem_cons_of_mem k hk', rest⟩

theorem runFrom_append (ctx : Ctx) : ∀ (xs ys : List Nat) (rs : RunState),
    runFrom ctx rs (xs ++ ys) =
      runFrom ctx rs xs ++ runFrom ctx (stateAfter ctx rs xs) ys := by
  intro xs
  induction xs with
  | nil => intro ys rs; simp [runFrom, stateAfter]
  | cons x xs ih =>
    intro ys rs
    rw [List.cons_append, runFrom, runFrom, stateAfter]
    cases hp : processDay ctx rs x with
    | mk o rs' =>
      cases o with
      | none => simpa using ih ys rs'
      | some e => simpa using ih ys rs'

/-- The continuous pre-skip only passes over exhausted cycles. -/
theorem preSkip_inv (ctx : Ctx) (ptrs : List (String × Nat)) : ∀ (fuel idx : Nat),
    (∀ j, j < idx → isCycleExhausted ctx ptrs j = true) →
    ∀ j, j < preSkip ctx ptrs fuel idx → isCycleExhausted ctx ptrs j = true := by
  intro fuel
  induction fuel with
  | zero => intro idx h j hj; rw [preSkip] at hj; exact h j hj
  | succ n ih =>
    intro idx h j hj
    rw [preSkip] at hj
    by_cases hcond : (decide (idx < ctx.plan.cycles.length) && isCycleExhausted ctx ptrs idx) = true
    · rw [if_pos hcond] at hj
      refine ih (idx + 1) ?_ j hj
      intro j' hj'
      rcases Nat.lt_succ_iff_lt_or_eq.mp hj' with hj' | hj'
      · exact h j' hj'
      · subst hj'
        exact (Bool.and_eq_true _ _).mp hcond |>.2
    · rw [if_neg hcond] at hj
      exact h j hj

/-- The initial walk state satisfies the continuous-mode invariant. -/
theorem initRunState_inv (ctx : Ctx) :
    ctx.mode = .continuo →
    ContInv ctx (initRunState ctx).ptrs (initRunState ctx).cycleIdx := by
  intro hmode
  unfold initRunState initialCycleIndex
  simp only [hmode]
  intro j hj
  simp only [beq_self_eq_true, if_true] at hj
  exact preSkip_inv ctx (initPtrs ctx.plan) ctx.plan.cycles.length 0 (by omega) j hj

/-- `processDay` preserves the continuous-mode invariant. -/
theorem processDay_inv (ctx : Ctx) (rs : RunState) (k : Nat)
    (h : ctx.mode = .continuo → ContInv ctx rs.ptrs rs.cycleIdx) :
    ctx.mode = .continuo →
    ContInv ctx (processDay ctx rs k).2.ptrs (processDay ctx rs k).2.cycleIdx := by
  intro hmode
  by_cases hskip : routineGet ctx.routine (getDayName (ctx.startDate + k)) = 0
  · rw [processDay_skip ctx rs k hskip]
    exact h hmode
  · rw [processDay_run ctx rs k hskip]
    have := (dayLoop_facts ctx (ctx.startDate + k) 500 (dayEntry ctx rs k) 0
      (fun _ => Nat.zero_le _) (fun _ => rfl)).2.2.2 hmode (h hmode)
    exact this

/-- `stateAfter` preserves the continuous-mode invariant. -/
theorem stateAfter_inv (ctx : Ctx) : ∀ (ks : List Nat) (rs : RunState),
    (ctx.mode = .continuo → ContInv ctx rs.ptrs rs.cycleIdx) →
    ctx.mode = .continuo →
    ContInv ctx (stateAfter ctx rs ks).ptrs (stateAfter ctx rs ks).cycleIdx := by
  intro ks
  induction ks with
  | nil => intro rs h hmode; exact h hmode
  | cons k ks ih =>
    intro rs h hmode
    rw [stateAfter]
    exact ih (processDay ctx rs k).2 (processDay_inv ctx rs k h) hmode

/-- The non-short-circuit form of `generateSchedule`. -/
theorem generateSchedule_eq (calcDur : Goal → String → Nat) (plan : StudyPlan)
    (routine : Routine) (startDate : Nat) (completedGoals : List String) (userLevel : String)
    (allSimulados : List Simulado) (userAttempts : List SimuladoAttempt)
    (hcycles : plan.cycles.length ≠ 0) (havail : hasAvailability routine = true) :
    generateSchedule calcDur plan routine startDate completedGoals userLevel false
        allSimulados userAttempts =
      runFrom (mkCtx calcDur plan routine startDate completedGoals userLevel
          allSimulados userAttempts)
        (initRunState (mkCtx calcDur plan routine startDate completedGoals userLevel
          allSimulados userAttempts))
        (List.range MAX_DAYS) := by
  unfold generateSchedule
  simp only [Bool.false_eq_true, if_false, beq_iff_eq, hcycles, havail, Bool.not_true]
  rfl

/-- Every item of every walk entry is `Pushed` from cycle index at least
`m`, provided the start state is at index at least `m` (continuous mode)
or `m = 0` (rotating mode). -/
theorem runFrom_pushed (ctx : Ctx) (m : Nat) : ∀ (ks : List Nat) (rs : RunState),
    (ctx.mode = .continuo → m ≤ rs.cycleIdx) →
    (ctx.mode = .rotativo → m = 0) →
    ∀ e ∈ runFrom ctx rs ks, ∀ it ∈ e.2, Pushed ctx e.1 m it := by
  intro ks
  induction ks with
  | nil => intro rs _ _ e he; simp [runFrom] at he
  | cons k ks ih =>
    intro rs hm hm0 e he
    rw [runFrom] at he
    by_cases h : routineGet ctx.routine (getDayName (ctx.startDate + k)) = 0
    · rw [processDay_skip ctx rs k h] at he
      exact ih rs hm hm0 e he
    · rw [processDay_run ctx rs k h] at he
      have hfacts := dayLoop_facts ctx (ctx.startDate + k) 500 (dayEntry ctx rs k) m hm hm0
      have hm' : ctx.mode = .continuo →
          m ≤ (dayLoop ctx (ctx.startDate + k) 500 (dayEntry ctx rs k)).cycleIdx :=
        fun _ => hfacts.2.2.1
      by_cases hemp : (dayLoop ctx (ctx.startDate + k) 500 (dayEntry ctx rs k)).items.isEmpty
      · rw [if_pos hemp] at he
        exact ih _ hm' hm0 e he
      · rw [if_neg hemp] at he
        rcases List.mem_cons.mp he with he | he
        · subst he
          intro it hit
          obtain ⟨t, ht, hprop⟩ := hfacts.1
          have hit' : it ∈ (dayLoop ctx (ctx.startDate + k) 500 (dayEntry ctx rs k)).items := hit
          rw [ht] at hit'
          refine hprop it ?_
          simpa [dayEntry] using hit' 
        · exact ih _ hm' hm0 e he

/-- A weekday with non-zero routine minutes witnesses overall
availability. -/
theorem hasAvailability_of_routineGet (r : Routine) (name : String)
    (h : routineGet r name ≠ 0) : hasAvailability r = true := by
  by_contra hfalse
  simp only [hasAvailability, Bool.or_eq_true, decide_eq_true_eq, not_or,
    Bool.not_eq_true] at hfalse
  have h0 : routineGet r name = 0 := by
    unfold routineGet
    repeat (first | omega | split)
  exact h h0

/-- Items of any schedule entry are `Pushed` (from any cycle index). -/
theorem schedule_entries_pushed (calcDur : Goal → String → Nat) (plan : StudyPlan)
    (routine : Routine) (startDate : Nat) (completedGoals : List String) (userLevel : String)
    (isPaused : Bool) (allSimulados : List Simulado) (userAttempts : List SimuladoAttempt) :
    ∀ e ∈ generateSchedule calcDur plan routine startDate completedGoals userLevel isPaused
        allSimulados userAttempts, ∀ it ∈ e.2,
      Pushed (mkCtx calcDur plan routine startDate completedGoals userLevel
        allSimulados userAttempts) e.1 0 it := by
  intro e he it hit
  unfold generateSchedule at he
  by_cases hp : isPaused
  · rw [if_pos hp] at he; simp at he
  · rw [if_neg hp] at he
    by_cases hc : (plan.cycles.length == 0) = true
    · rw [if_pos hc] at he; simp at he
    · rw [if_neg hc] at he
      by_cases ha : hasAvailability routine = true
      · rw [ha] at he
        simp only [Bool.not_true, Bool.false_eq_true, if_false] at he
        exact runFrom_pushed _ 0 (List.range MAX_DAYS) _ (fun _ => Nat.zero_le _)
          (fun _ => rfl) e he it hit
      · rw [Bool.not_eq_true] at ha
        rw [ha] at he
        simp at he

/-- Every schedule entry is a non-empty day produced by the day loop from
an empty per-day state. -/
theorem schedule_entries (calcDur : Goal → String → Nat) (plan : StudyPlan)
    (routine : Routine) (startDate : Nat) (completedGoals : List String) (userLevel : String)
    (isPaused : Bool) (allSimulados : List Simulado) (userAttempts : List SimuladoAttempt) :
    ∀ e ∈ generateSchedule calcDur plan routine startDate completedGoals userLevel isPaused
        allSimulados userAttempts,
      ∃ k, k < MAX_DAYS ∧ e.1 = startDate + k ∧ e.2 ≠ [] ∧
        ∃ rs₀ : RunState,
          e.2 = (dayLoop (mkCtx calcDur plan routine startDate completedGoals userLevel
              allSimulados userAttempts) (startDate + k) 500
            (dayEntry (mkCtx calcDur plan routine startDate completedGoals userLevel
              allSimulados userAttempts) rs₀ k)).items := by
  intro e he
  unfold generateSchedule at he
  by_cases hp : isPaused
  · rw [if_pos hp] at he; simp at he
  · rw [if_neg hp] at he
    by_cases hc : (plan.cycles.length == 0) = true
    · rw [if_pos hc] at he; simp at he
    · rw [if_neg hc] at he
      by_cases ha : hasAvailability routine = true
      · rw [ha] at he
        simp only [Bool.not_true, Bool.false_eq_true, if_false] at he
        obtain ⟨k, hk, he1, -, rs₀, he2, hne⟩ := runFrom_entries _ (List.range MAX_DAYS) _ e he
        exact ⟨k, List.mem_range.mp hk, he1, hne, rs₀, he2⟩
      · rw [Bool.not_eq_true] at ha
        rw [ha] at he
        simp at he

/-! ## Concrete scenarios used by counterexamples and witnesses -/

/-- A constant external duration rule (30 minutes per goal). -/
def exCalc : Goal → String → Nat := fun _ _ => 30

def exGoal (n : Nat) : Goal :=
  { id := "g" ++ toString n, type := "OUTRO", title := "G" ++ toString n, order := n }

def discA : Discipline :=
  { id := "mat", name := "Matematica", order := 0, folderId := none,
    subjects := [{ name := "s1", order := 0, goals := [exGoal 1, exGoal 2, exGoal 3] }] }

/-- The C8 scenario plan: one discipline, one cycle with a single item of
subject-target 1, continuous mode. -/
def planA : StudyPlan :=
  { disciplines := [discA],
    cycles := [{ id := "cy1", items := [{ disciplineId := some "mat", subjectsCount := 1 }] }],
    cycleSystem := some .continuo }

def routA : Routine := { segunda := 60 }

def simE1 : Simulado := { id := "e1", title := "Exam1", totalQuestions := 10 }

/-- A plan whose cycle holds a discipline item followed by an exam item. -/
def planB : StudyPlan :=
  { disciplines := [discA],
    cycles := [{ id := "cy1", items := [{ disciplineId := some "mat", subjectsCount := 1 },
                                        { simuladoId := some "e1" }] }],
    cycleSystem := some .continuo }

def routB : Routine := { segunda := 240 }

/-- 500 cycles with no items, then one cycle holding an unattempted exam:
rotating mode spends a full 500-iteration day skipping the empty cycles. -/
def planC : StudyPlan :=
  { disciplines := [],
    cycles := (List.range 500).map (fun i => { id := "c" ++ toString i, items := [] }) ++
      [{ id := "cx", items := [{ simuladoId := some "e1" }] }],
    cycleSystem := some .rotativo }

def ctxC : Ctx :=
  { calcDur := exCalc, plan := planC, routine := routA, startDate := 1,
    completedGoals := [], userLevel := "iniciante", allSimulados := [simE1], userAttempts := [] }

/-! ## Claim theorems -/

/-- C4: if `isPaused` is true, or the plan has no cycles, or every weekday
of the routine maps to zero minutes, `generateSchedule` returns the empty
mapping (a fast exit; being a total function it signals no error). -/
theorem C4_short_circuits (calcDur : Goal → String → Nat) (plan : StudyPlan) (routine : Routine)
    (startDate : Nat) (completedGoals : List String) (userLevel : String) (isPaused : Bool)
    (allSimulados : List Simulado) (userAttempts : List SimuladoAttempt) :
    (isPaused = true →
      generateSchedule calcDur plan routine startDate completedGoals userLevel isPaused
        allSimulados userAttempts = []) ∧
    (plan.cycles = [] →
      generateSchedule calcDur plan routine startDate completedGoals userLevel isPaused
        allSimulados userAttempts = []) ∧
    (routine.domingo = 0 ∧ routine.segunda = 0 ∧ routine.terca = 0 ∧ routine.quarta = 0 ∧
        routine.quinta = 0 ∧ routine.sexta = 0 ∧ routine.sabado = 0 →
      generateSchedule calcDur plan routine startDate completedGoals userLevel isPaused
        allSimulados userAttempts = []) := by
  refine ⟨?_, ?_, ?_⟩
  · intro h
    unfold generateSchedule
    simp [h]
  · intro h
    unfold generateSchedule
    simp [h]
  · intro h
    obtain ⟨h1, h2, h3, h4, h5, h6, h7⟩ := h
    unfold generateSchedule
    have : hasAvailability routine = false := by
      simp [hasAvailability, h1, h2, h3, h4, h5, h6, h7]
    simp [this]

/-- C4 witness: the three short circuits at concrete inputs. -/
theorem C4_witness :
    generateSchedule exCalc planA routA 1 [] "iniciante" true [] [] = [] ∧
    generateSchedule exCalc { disciplines := [discA], cycles := [] } routA 1 [] "iniciante"
      false [] [] = [] ∧
    generateSchedule exCalc planA {} 1 [] "iniciante" false [] [] = [] :=
  ⟨(C4_short_circuits exCalc planA routA 1 [] "iniciante" true [] []).1 rfl,
   (C4_short_circuits exCalc { disciplines := [discA], cycles := [] } routA 1 [] "iniciante"
      false [] []).2.1 rfl,
   (C4_short_circuits exCalc planA {} 1 [] "iniciante" false [] []).2.2
      ⟨rfl, rfl, rfl, rfl, rfl, rfl, rfl⟩⟩

/-- C8: in the concrete scenario (one discipline with three 30-minute goals
in one subject, one cycle item with subject-target 1, 60 minutes every
Monday, a Monday start, continuous mode, no completions or exams), the
first Monday holds exactly the first two goals and the next Monday the
third. -/
theorem C8_concrete_scenario :
    (generateSchedule exCalc planA routA 1 [] "iniciante" false [] []).map
        (fun e => (e.1, e.2.map (fun it => it.goalId))) =
      [(1, ["g1", "g2"]), (8, ["g3"])] := by
  decide

/-- C5: a zero resolved duration is replaced by 15 minutes for non-lesson
goals and by 30 minutes for lesson goals, a non-zero duration is kept, and
every scheduled goal item's recorded duration is exactly the resolved
duration of its goal. -/
theorem C5_duration_resolution (calcDur : Goal → String → Nat) (goal : Goal)
    (userLevel : String) (plan : StudyPlan) (routine : Routine) (startDate : Nat)
    (completedGoals : List String) (isPaused : Bool) (allSimulados : List Simulado)
    (userAttempts : List SimuladoAttempt) :
    (calcDur goal userLevel = 0 → goal.type ≠ "AULA" →
      resolveDuration calcDur goal userLevel = 15) ∧
    (calcDur goal userLevel = 0 → goal.type = "AULA" →
      resolveDuration calcDur goal userLevel = 30) ∧
    (calcDur goal userLevel ≠ 0 →
      resolveDuration calcDur goal userLevel = calcDur goal userLevel) ∧
    (∀ e ∈ generateSchedule calcDur plan routine startDate completedGoals userLevel isPaused
        allSimulados userAttempts, ∀ it ∈ e.2, it.simuladoData = none →
      ∃ g, it.originalGoal = some g ∧ it.duration = resolveDuration calcDur g userLevel) := by
  refine ⟨?_, ?_, ?_, ?_⟩
  · intro h0 htype
    unfold resolveDuration
    have : (goal.type != "AULA") = true := by simpa using htype
    simp [h0, this]
  · intro h0 htype
    unfold resolveDuration
    simp [h0, htype]
  · intro h0
    unfold resolveDuration
    simp [h0]
  · intro e he it hit hnone
    rcases schedule_entries_pushed calcDur plan routine startDate completedGoals userLevel
        isPaused allSimulados userAttempts e he it hit with
      ⟨i, hi, c, hc, did, q, hq, pos, hp, hunc, heq⟩ | ⟨i, hi, c, hc, ci, hci, sid, hsid, hunat, simulado, hfind, heq⟩
    · rw [heq]
      exact ⟨(q.get ⟨pos, hp⟩).goal, rfl, rfl⟩
    · rw [heq] at hnone
      simp [mkExamItem] at hnone

/-- C5 witness: a goal of each kind at concrete inputs. -/
theorem C5_witness :
    (resolveDuration (fun _ _ => 0) (exGoal 1) "iniciante" = 15) ∧
    (resolveDuration (fun _ _ => 0) { exGoal 1 with type := "AULA" } "iniciante" = 30) ∧
    (resolveDuration exCalc (exGoal 1) "iniciante" = 30) ∧
    (∃ e, e ∈ generateSchedule exCalc planA routA 1 [] "iniciante" false [] [] ∧
      ∃ it, it ∈ e.2 ∧ it.simuladoData = none ∧
        ∃ g, it.originalGoal = some g ∧ it.duration = resolveDuration exCalc g "iniciante") := by
  refine ⟨?_, ?_, ?_, ?_⟩
  · exact (C5_duration_resolution (fun _ _ => 0) (exGoal 1) "iniciante" planA routA 1 []
      false [] []).1 rfl (by decide)
  · exact (C5_duration_resolution (fun _ _ => 0) { exGoal 1 with type := "AULA" } "iniciante"
      planA routA 1 [] false [] []).2.1 rfl rfl
  · exact (C5_duration_resolution exCalc (exGoal 1) "iniciante" planA routA 1 []
      false [] []).2.2.1 (by decide)
  · have hmem : ((1 : Nat), [mkGoalItem exCalc "iniciante" 1 "cy1" "mat"
        { goal := exGoal 1, subjectName := "s1", disciplineName := "Matematica" },
        mkGoalItem exCalc "iniciante" 1 "cy1" "mat"
        { goal := exGoal 2, subjectName := "s1", disciplineName := "Matematica" }]) ∈
        generateSchedule exCalc planA routA 1 [] "iniciante" false [] [] := by decide
    refine ⟨_, hmem, mkGoalItem exCalc "iniciante" 1 "cy1" "mat"
      { goal := exGoal 1, subjectName := "s1", disciplineName := "Matematica" },
      by decide, rfl, ?_⟩
    exact (C5_duration_resolution exCalc (exGoal 1) "iniciante" planA routA 1 [] false [] []
      ).2.2.2 _ hmem _ (by decide) rfl

/-- C3: no goal item anywhere in the 90-day agenda references a completed
goal (exam items reference exams, carrying no goal), and reaching a
completed goal in a visit advances the discipline pointer past it while
charging no minutes (the state is otherwise untouched). -/
theorem C3_completed_goal_exclusion (calcDur : Goal → String → Nat) (plan : StudyPlan)
    (routine : Routine) (startDate : Nat) (completedGoals : List String) (userLevel : String)
    (isPaused : Bool) (allSimulados : List Simulado) (userAttempts : List SimuladoAttempt) :
    (∀ e ∈ generateSchedule calcDur plan routine startDate completedGoals userLevel isPaused
        allSimulados userAttempts, ∀ it ∈ e.2, it.simuladoData = none →
      completedGoals.contains it.goalId = false) ∧
    (∀ e ∈ generateSchedule calcDur plan routine startDate completedGoals userLevel isPaused
        allSimulados userAttempts, ∀ it ∈ e.2, it.simuladoData.isSome →
      it.originalGoal = none) ∧
    (∀ (ctx : Ctx) (dateN : Nat) (cid did : String) (target : Nat) (q : List QueuedGoal)
        (n : Nat) (s : VState) (h : s.scheduled < target ∧ s.pointer < q.length),
      ctx.completedGoals.contains (q.get ⟨s.pointer, h.2⟩).goal.id = true →
      visit ctx dateN cid did target q (n + 1) s =
        visit ctx dateN cid did target q n
          { s with pointer := s.pointer + 1, ptrs := setPtr s.ptrs did (s.pointer + 1) }) := by
  refine ⟨?_, ?_, ?_⟩
  · intro e he it hit hnone
    rcases schedule_entries_pushed calcDur plan routine startDate completedGoals userLevel
        isPaused allSimulados userAttempts e he it hit with
      ⟨i, hi, c, hc, did, q, hq, pos, hp, hunc, heq⟩ |
      ⟨i, hi, c, hc, ci, hci, sid, hsid, hunat, simulado, hfind, heq⟩
    · rw [heq]
      simp only [mkGoalItem]
      rwa [Bool.not_eq_true] at hunc
    · rw [heq] at hnone
      simp [mkExamItem] at hnone
  · intro e he it hit hsome
    rcases schedule_entries_pushed calcDur plan routine startDate completedGoals userLevel
        isPaused allSimulados userAttempts e he it hit with
      ⟨i, hi, c, hc, did, q, hq, pos, hp, hunc, heq⟩ |
      ⟨i, hi, c, hc, ci, hci, sid, hsid, hunat, simulado, hfind, heq⟩
    · rw [heq] at hsome
      simp [mkGoalItem] at hsome
    · rw [heq]
      simp [mkExamItem]
  · intro ctx dateN cid did target q n s h hcomp
    exact visit_completed ctx dateN cid did target q n s h hcomp

/-- C3 witness: with goal `g1` completed, the first Monday schedules `g2`
and `g3` and no scheduled item references `g1`. -/
theorem C3_witness :
    (∃ e, e ∈ generateSchedule exCalc planA routA 1 ["g1"] "iniciante" false [] [] ∧
      ∃ it, it ∈ e.2 ∧ it.simuladoData = none ∧
        (["g1"] : List String).contains it.goalId = false) ∧
    (∀ e ∈ generateSchedule exCalc planA routA 1 ["g1"] "iniciante" false [] [],
      ∀ it ∈ e.2, it.simuladoData = none → (["g1"] : List String).contains it.goalId = false) := by
  constructor
  · have hmem : ((1 : Nat), [mkGoalItem exCalc "iniciante" 1 "cy1" "mat"
        { goal := exGoal 2, subjectName := "s1", disciplineName := "Matematica" },
        mkGoalItem exCalc "iniciante" 1 "cy1" "mat"
        { goal := exGoal 3, subjectName := "s1", disciplineName := "Matematica" }]) ∈
        generateSchedule exCalc planA routA 1 ["g1"] "iniciante" false [] [] := by decide
    refine ⟨_, hmem, mkGoalItem exCalc "iniciante" 1 "cy1" "mat"
      { goal := exGoal 2, subjectName := "s1", disciplineName := "Matematica" }, by decide, rfl, ?_⟩
    exact (C3_completed_goal_exclusion exCalc planA routA 1 ["g1"] "iniciante" false [] []).1
      _ hmem _ (by decide) rfl
  · exact (C3_completed_goal_exclusion exCalc planA routA 1 ["g1"] "iniciante" false [] []).1

/-- C6: every key of the output agenda lies in the half-open 90-day window
starting at the start date, and maps to a non-empty item list. -/
theorem C6_horizon_bound (calcDur : Goal → String → Nat) (plan : StudyPlan)
    (routine : Routine) (startDate : Nat) (completedGoals : List String) (userLevel : String)
    (isPaused : Bool) (allSimulados : List Simulado) (userAttempts : List SimuladoAttempt) :
    ∀ e ∈ generateSchedule calcDur plan routine startDate completedGoals userLevel isPaused
        allSimulados userAttempts,
      startDate ≤ e.1 ∧ e.1 < startDate + MAX_DAYS ∧ e.2 ≠ [] := by
  intro e he
  obtain ⟨k, hk, he1, hne, -⟩ := schedule_entries calcDur plan routine startDate completedGoals
    userLevel isPaused allSimulados userAttempts e he
  refine ⟨?_, ?_, hne⟩ <;> omega

/-- C6 witness: the concrete scenario's agenda at a concrete entry. -/
theorem C6_witness :
    ∃ e, e ∈ generateSchedule exCalc planA routA 1 [] "iniciante" false [] [] ∧
      1 ≤ e.1 ∧ e.1 < 1 + MAX_DAYS ∧ e.2 ≠ [] := by
  have hmem : ((1 : Nat), [mkGoalItem exCalc "iniciante" 1 "cy1" "mat"
      { goal := exGoal 1, subjectName := "s1", disciplineName := "Matematica" },
      mkGoalItem exCalc "iniciante" 1 "cy1" "mat"
      { goal := exGoal 2, subjectName := "s1", disciplineName := "Matematica" }]) ∈
      generateSchedule exCalc planA routA 1 [] "iniciante" false [] [] := by decide
  exact ⟨_, hmem, C6_horizon_bound exCalc planA routA 1 [] "iniciante" false [] [] _ hmem⟩

/-- C10: an exam item is always the final element of its day's list —
placing it zeroes the remaining minutes, so nothing follows it. -/
theorem C10_exam_is_final (calcDur : Goal → String → Nat) (plan : StudyPlan)
    (routine : Routine) (startDate : Nat) (completedGoals : List String) (userLevel : String)
    (isPaused : Bool) (allSimulados : List Simulado) (userAttempts : List SimuladoAttempt) :
    ∀ e ∈ generateSchedule calcDur plan routine startDate completedGoals userLevel isPaused
        allSimulados userAttempts,
      ∀ i, ∀ hi : i < e.2.length, (e.2.get ⟨i, hi⟩).simuladoData.isSome →
        i + 1 = e.2.length := by
  intro e he i hi hsome
  obtain ⟨k, hk, he1, hne, rs₀, he2⟩ := schedule_entries calcDur plan routine startDate
    completedGoals userLevel isPaused allSimulados userAttempts e he
  have hstart : ∀ it ∈ (dayEntry (mkCtx calcDur plan routine startDate completedGoals userLevel
      allSimulados userAttempts) rs₀ k).items, it.simuladoData = none := by
    simp [dayEntry]
  rcases dayLoop_exam_last (mkCtx calcDur plan routine startDate completedGoals userLevel
      allSimulados userAttempts) (startDate + k) 500 (dayEntry (mkCtx calcDur plan routine
      startDate completedGoals userLevel allSimulados userAttempts) rs₀ k) hstart with
    hno | ⟨pre, ex, hsplit, hpre, hex⟩
  · rw [← he2] at hno
    have := hno (e.2.get ⟨i, hi⟩) (List.get_mem e.2 i hi)
    rw [this] at hsome
    simp at hsome
  · rw [← he2] at hsplit
    by_cases hip : i < pre.length
    · have hmem : e.2.get ⟨i, hi⟩ ∈ pre := by
        have h1 : e.2.get ⟨i, hi⟩ = pre.get ⟨i, hip⟩ := by
          rw [List.get_of_eq hsplit ⟨i, hi⟩]
          exact List.get_append i hip
        rw [h1]
        exact List.get_mem pre i hip
      have := hpre _ hmem
      rw [this] at hsome
      simp at hsome
    · have hlen : e.2.length = pre.length + 1 := by rw [hsplit]; simp
      omega

/-- C10 witness: in the goal-then-exam scenario the exam is the last item
of the first Monday. -/
theorem C10_witness :
    ∃ e, e ∈ generateSchedule exCalc planB routB 1 [] "iniciante" false [simE1] [] ∧
      ∃ hi : 1 < e.2.length, (e.2.get ⟨1, hi⟩).simuladoData.isSome ∧ 1 + 1 = e.2.length := by
  have hmem : ((1 : Nat), [mkGoalItem exCalc "iniciante" 1 "cy1" "mat"
      { goal := exGoal 1, subjectName := "s1", disciplineName := "Matematica" },
      mkExamItem 1 simE1]) ∈
      generateSchedule exCalc planB routB 1 [] "iniciante" false [simE1] [] := by decide
  refine ⟨_, hmem, by decide, by decide, ?_⟩
  exact C10_exam_is_final exCalc planB routB 1 [] "iniciante" false [simE1] [] _ hmem 1
    (by decide) (by decide)

/-- C1 counterexample: a day of the agenda contains an exam item together
with a goal item placed before it, so an exam day does not contain exactly
one item in total. -/
theorem C1_counterexample :
    ∃ e, e ∈ generateSchedule exCalc planB routB 1 [] "iniciante" false [simE1] [] ∧
      (∃ it, it ∈ e.2 ∧ it.simuladoData.isSome) ∧ e.2.length ≠ 1 := by
  decide

/-- C1 (amended): any day of the agenda contains at most one exam item
(which the code places last, consuming the rest of the day); a day holding
an exam may still hold goal items placed before it. -/
theorem C1_exam_count (calcDur : Goal → String → Nat) (plan : StudyPlan)
    (routine : Routine) (startDate : Nat) (completedGoals : List String) (userLevel : String)
    (isPaused : Bool) (allSimulados : List Simulado) (userAttempts : List SimuladoAttempt) :
    ∀ e ∈ generateSchedule calcDur plan routine startDate completedGoals userLevel isPaused
        allSimulados userAttempts,
      (e.2.filter (fun it => it.simuladoData.isSome)).length ≤ 1 := by
  intro e he
  obtain ⟨k, hk, he1, hne, rs₀, he2⟩ := schedule_entries calcDur plan routine startDate
    completedGoals userLevel isPaused allSimulados userAttempts e he
  have hstart : ∀ it ∈ (dayEntry (mkCtx calcDur plan routine startDate completedGoals userLevel
      allSimulados userAttempts) rs₀ k).items, it.simuladoData = none := by
    simp [dayEntry]
  rcases dayLoop_exam_last (mkCtx calcDur plan routine startDate completedGoals userLevel
      allSimulados userAttempts) (startDate + k) 500 (dayEntry (mkCtx calcDur plan routine
      startDate completedGoals userLevel allSimulados userAttempts) rs₀ k) hstart with
    hno | ⟨pre, ex, hsplit, hpre, hex⟩
  · rw [← he2] at hno
    have : e.2.filter (fun it => it.simuladoData.isSome) = [] := by
      rw [List.filter_eq_nil_iff]
      intro it hit
      rw [hno it hit]
      simp
    rw [this]
    simp
  · rw [← he2] at hsplit
    rw [hsplit, List.filter_append]
    have hpre0 : pre.filter (fun it => it.simuladoData.isSome) = [] := by
      rw [List.filter_eq_nil_iff]
      intro it hit
      rw [hpre it hit]
      simp
    rw [hpre0]
    simp only [List.nil_append]
    have := List.length_filter_le (fun it => it.simuladoData.isSome) [ex]
    simpa using this

/-- C1 witness: the goal-then-exam day satisfies the amended bound. -/
theorem C1_witness :
    ∃ e, e ∈ generateSchedule exCalc planB routB 1 [] "iniciante" false [simE1] [] ∧
      (e.2.filter (fun it => it.simuladoData.isSome)).length ≤ 1 := by
  have hmem : ((1 : Nat), [mkGoalItem exCalc "iniciante" 1 "cy1" "mat"
      { goal := exGoal 1, subjectName := "s1", disciplineName := "Matematica" },
      mkExamItem 1 simE1]) ∈
      generateSchedule exCalc planB routB 1 [] "iniciante" false [simE1] [] := by decide
  exact ⟨_, hmem, C1_exam_count exCalc planB routB 1 [] "iniciante" false [simE1] [] _ hmem⟩

/-- A two-cycle plan with a chosen cycle system. -/
def twoCyclePlan (disciplines : List Discipline) (c0 c1 : Cycle) (mode : CycleSystem) :
    StudyPlan :=
  { disciplines := disciplines, cycles := [c0, c1], cycleSystem := some mode }

/-- One unfolding of the continuous pre-skip loop. -/
theorem preSkip_step (ctx : Ctx) (ptrs : List (String × Nat)) (n idx : Nat) :
    preSkip ctx ptrs (n + 1) idx =
      if (decide (idx < ctx.plan.cycles.length) && isCycleExhausted ctx ptrs idx) = true
      then preSkip ctx ptrs n (idx + 1) else idx := rfl

/-- C7: with the first cycle already exhausted and the second not,
continuous mode pre-skips to cycle index 1 before the first day, so the
whole agenda is pushed from cycle index at least 1 (the second cycle);
rotating mode does no pre-skip — its walk starts at cycle index 0 and
advances to the second cycle only by moving past the end of the first
cycle's item list. -/
theorem C7_mode_divergence (calcDur : Goal → String → Nat) (disciplines : List Discipline)
    (c0 c1 : Cycle) (routine : Routine) (startDate : Nat) (completedGoals : List String)
    (userLevel : String) (allSimulados : List Simulado) (userAttempts : List SimuladoAttempt)
    (hexh0 : isCycleExhausted (mkCtx calcDur (twoCyclePlan disciplines c0 c1 .continuo)
        routine startDate completedGoals userLevel allSimulados userAttempts)
      (initPtrs (twoCyclePlan disciplines c0 c1 .continuo)) 0 = true)
    (hexh1 : isCycleExhausted (mkCtx calcDur (twoCyclePlan disciplines c0 c1 .continuo)
        routine startDate completedGoals userLevel allSimulados userAttempts)
      (initPtrs (twoCyclePlan disciplines c0 c1 .continuo)) 1 = false) :
    initialCycleIndex (mkCtx calcDur (twoCyclePlan disciplines c0 c1 .continuo)
      routine startDate completedGoals userLevel allSimulados userAttempts) = 1 ∧
    initialCycleIndex (mkCtx calcDur (twoCyclePlan disciplines c0 c1 .rotativo)
      routine startDate completedGoals userLevel allSimulados userAttempts) = 0 ∧
    (∀ e ∈ generateSchedule calcDur (twoCyclePlan disciplines c0 c1 .continuo) routine
        startDate completedGoals userLevel false allSimulados userAttempts,
      ∀ it ∈ e.2, Pushed (mkCtx calcDur (twoCyclePlan disciplines c0 c1 .continuo)
        routine startDate completedGoals userLevel allSimulados userAttempts) e.1 1 it) ∧
    (∀ (dateN : Nat) (st : DayState), st.cycleIdx = 0 →
      st.itemIdx ≥ (expandCycleItems c0 (twoCyclePlan disciplines c0 c1 .rotativo)).length →
      dayStep (mkCtx calcDur (twoCyclePlan disciplines c0 c1 .rotativo)
          routine startDate completedGoals userLevel allSimulados userAttempts) dateN st =
        .cont { st with cycleIdx := 1, itemIdx := 0 }) := by
  have hpre : initialCycleIndex (mkCtx calcDur (twoCyclePlan disciplines c0 c1 .continuo)
      routine startDate completedGoals userLevel allSimulados userAttempts) = 1 := by
    unfold initialCycleIndex
    have hmode : (mkCtx calcDur (twoCyclePlan disciplines c0 c1 .continuo)
        routine startDate completedGoals userLevel allSimulados userAttempts).mode =
        CycleSystem.continuo := rfl
    rw [hmode]
    simp only [beq_self_eq_true, if_true]
    have hlen : (mkCtx calcDur (twoCyclePlan disciplines c0 c1 .continuo)
        routine startDate completedGoals userLevel allSimulados userAttempts).plan.cycles.length = 2 := rfl
    show preSkip (mkCtx calcDur (twoCyclePlan disciplines c0 c1 .continuo)
      routine startDate completedGoals userLevel allSimulados userAttempts)
      (initPtrs (twoCyclePlan disciplines c0 c1 .continuo)) (1 + 1) 0 = 1
    rw [preSkip_step]
    rw [if_pos (by rw [hexh0]; simp [hlen])]
    rw [preSkip_step]
    rw [if_neg (by rw [hexh1]; simp)]
  refine ⟨hpre, rfl, ?_, ?_⟩
  · intro e he it hit
    unfold generateSchedule at he
    simp only [Bool.false_eq_true, if_false] at he
    by_cases hc : ((twoCyclePlan disciplines c0 c1 .continuo).cycles.length == 0) = true
    · simp [twoCyclePlan] at hc
    · rw [if_neg hc] at he
      by_cases ha : hasAvailability routine = true
      · rw [ha] at he
        simp only [Bool.not_true, Bool.false_eq_true, if_false] at he
        refine runFrom_pushed _ 1 (List.range MAX_DAYS) _ ?_ ?_ e he it hit
        · intro _
          show 1 ≤ initialCycleIndex (mkCtx calcDur (twoCyclePlan disciplines c0 c1 .continuo)
            routine startDate completedGoals userLevel allSimulados userAttempts)
          rw [hpre]
        · intro hmode
          exact absurd hmode (by simp [Ctx.mode, mkCtx, twoCyclePlan])
      · rw [Bool.not_eq_true] at ha
        rw [ha] at he
        simp at he
  · intro dateN st hcyc hidx
    unfold dayStep
    have hnb : ¬ st.cycleIdx ≥ (mkCtx calcDur (twoCyclePlan disciplines c0 c1 .rotativo)
        routine startDate completedGoals userLevel allSimulados userAttempts).plan.cycles.length := by
      rw [hcyc]
      simp [mkCtx, twoCyclePlan]
    rw [if_neg hnb]
    unfold dayStepCore
    have hc : (mkCtx calcDur (twoCyclePlan disciplines c0 c1 .rotativo)
        routine startDate completedGoals userLevel allSimulados userAttempts).plan.cycles[st.cycleIdx]? =
        some c0 := by
      rw [hcyc]
      rfl
    simp only [hc]
    have hidx' : st.itemIdx ≥ (expandCycleItems c0 (mkCtx calcDur
        (twoCyclePlan disciplines c0 c1 .rotativo) routine startDate completedGoals userLevel
        allSimulados userAttempts).plan).length := hidx
    rw [if_pos hidx']
    have hmode : ((mkCtx calcDur (twoCyclePlan disciplines c0 c1 .rotativo)
        routine startDate completedGoals userLevel allSimulados userAttempts).mode ==
        CycleSystem.continuo) = false := rfl
    rw [hmode]
    simp only [Bool.false_eq_true, if_false]
    rw [hcyc]

def cycE0 : Cycle := { id := "c0", items := [{ simuladoId := some "e2" }] }

def cycE1 : Cycle := { id := "c1", items := [{ disciplineId := some "mat", subjectsCount := 1 }] }

def attE2 : SimuladoAttempt := { simuladoId := "e2" }

/-- C7 witness: an attempted-exam first cycle and a fresh discipline second
cycle; continuous mode pre-skips to index 1, rotating mode starts at 0. -/
theorem C7_witness :
    isCycleExhausted (mkCtx exCalc (twoCyclePlan [discA] cycE0 cycE1 .continuo) routA 1 []
        "iniciante" [] [attE2]) (initPtrs (twoCyclePlan [discA] cycE0 cycE1 .continuo)) 0 = true ∧
    isCycleExhausted (mkCtx exCalc (twoCyclePlan [discA] cycE0 cycE1 .continuo) routA 1 []
        "iniciante" [] [attE2]) (initPtrs (twoCyclePlan [discA] cycE0 cycE1 .continuo)) 1 = false ∧
    initialCycleIndex (mkCtx exCalc (twoCyclePlan [discA] cycE0 cycE1 .continuo) routA 1 []
      "iniciante" [] [attE2]) = 1 ∧
    initialCycleIndex (mkCtx exCalc (twoCyclePlan [discA] cycE0 cycE1 .rotativo) routA 1 []
      "iniciante" [] [attE2]) = 0 := by
  refine ⟨by decide, by decide, ?_, ?_⟩
  · exact (C7_mode_divergence exCalc [discA] cycE0 cycE1 routA 1 [] "iniciante" [] [attE2]
      (by decide) (by decide)).1
  · exact (C7_mode_divergence exCalc [discA] cycE0 cycE1 routA 1 [] "iniciante" [] [attE2]
      (by decide) (by decide)).2.1

/-- C2 (amended): for every day of the horizon whose weekday has routine
minutes, if schedulable content remains in some cycle when that day is
reached, then either the agenda holds at least one item for that day, or
the day's inner loop exhausted its 500-iteration safety cap before placing
anything. -/
theorem C2_at_least_one_or_cap (calcDur : Goal → String → Nat) (plan : StudyPlan)
    (routine : Routine) (startDate : Nat) (completedGoals : List String) (userLevel : String)
    (allSimulados : List Simulado) (userAttempts : List SimuladoAttempt) (k : Nat)
    (hk : k < MAX_DAYS)
    (hmin : routineGet routine (getDayName (startDate + k)) ≠ 0)
    (hcontent : ∃ j, j < plan.cycles.length ∧
      cycleHasContent (mkCtx calcDur plan routine startDate completedGoals userLevel
          allSimulados userAttempts)
        (stateAfter (mkCtx calcDur plan routine startDate completedGoals userLevel
            allSimulados userAttempts)
          (initRunState (mkCtx calcDur plan routine startDate completedGoals userLevel
            allSimulados userAttempts)) (List.range k)).ptrs j = true) :
    (∃ l, (startDate + k, l) ∈ generateSchedule calcDur plan routine startDate completedGoals
        userLevel false allSimulados userAttempts ∧ l ≠ []) ∨
    (dayLoop (mkCtx calcDur plan routine startDate completedGoals userLevel allSimulados
        userAttempts) (startDate + k) 500
      (dayEntry (mkCtx calcDur plan routine startDate completedGoals userLevel allSimulados
          userAttempts)
        (stateAfter (mkCtx calcDur plan routine startDate completedGoals userLevel allSimulados
            userAttempts)
          (initRunState (mkCtx calcDur plan routine startDate completedGoals userLevel
            allSimulados userAttempts)) (List.range k)) k)).safety = 500 := by
  have hinv : (mkCtx calcDur plan routine startDate completedGoals userLevel allSimulados
      userAttempts).mode = .continuo →
      ContInv (mkCtx calcDur plan routine startDate completedGoals userLevel allSimulados
        userAttempts)
        (stateAfter (mkCtx calcDur plan routine startDate completedGoals userLevel allSimulados
            userAttempts)
          (initRunState (mkCtx calcDur plan routine startDate completedGoals userLevel
            allSimulados userAttempts)) (List.range k)).ptrs
        (stateAfter (mkCtx calcDur plan routine startDate completedGoals userLevel allSimulados
            userAttempts)
          (initRunState (mkCtx calcDur plan routine startDate completedGoals userLevel
            allSimulados userAttempts)) (List.range k)).cycleIdx := by
    intro hmode
    exact stateAfter_inv _ (List.range k) _ (fun h => initRunState_inv _ h) hmode
  have hminpos : (0 : Int) <
      (routineGet routine (getDayName (startDate + k)) : Int) := by
    have := Nat.pos_of_ne_zero hmin
    exact_mod_cast this
  rcases dayLoop_places_or_cap (mkCtx calcDur plan routine startDate completedGoals userLevel
      allSimulados userAttempts) (startDate + k) 500
      (dayEntry (mkCtx calcDur plan routine startDate completedGoals userLevel allSimulados
          userAttempts)
        (stateAfter (mkCtx calcDur plan routine startDate completedGoals userLevel allSimulados
            userAttempts)
          (initRunState (mkCtx calcDur plan routine startDate completedGoals userLevel
            allSimulados userAttempts)) (List.range k)) k)
      rfl hminpos rfl rfl hinv hcontent with hplaced | hcap
  · left
    obtain ⟨j, hjlen, -⟩ := hcontent
    have hcycles : plan.cycles.length ≠ 0 := by omega
    have havail : hasAvailability routine = true :=
      hasAvailability_of_routineGet routine _ hmin
    rw [generateSchedule_eq calcDur plan routine startDate completedGoals userLevel
      allSimulados userAttempts hcycles havail]
    have hsplit : List.range MAX_DAYS =
        List.range k ++ (k :: (List.range (MAX_DAYS - k - 1)).map (fun i => k + (i + 1))) := by
      have h90 : MAX_DAYS = k + (MAX_DAYS - k) := by omega
      rw [h90, List.range_add]
      congr 1
      have hm : MAX_DAYS - k = (MAX_DAYS - k - 1) + 1 := by omega
      rw [hm, List.range_succ_eq_map]
      simp [List.map_map, Function.comp]
    rw [hsplit, runFrom_append, runFrom_cons_run _ _ _ _ hmin hplaced]
    exact ⟨_, List.mem_append_right _ (List.mem_cons_self _ _), hplaced⟩
  · right
    exact hcap

/-- C2 witness: the concrete scenario at day 0 (a Monday with 60 minutes
and three fresh goals) satisfies the amended at-least-one-or-cap
property. -/
theorem C2_witness :
    (0 < MAX_DAYS ∧
      routineGet routA (getDayName (1 + 0)) ≠ 0 ∧
      (∃ j, j < planA.cycles.length ∧
        cycleHasContent (mkCtx exCalc planA routA 1 [] "iniciante" [] [])
          (stateAfter (mkCtx exCalc planA routA 1 [] "iniciante" [] [])
            (initRunState (mkCtx exCalc planA routA 1 [] "iniciante" [] []))
            (List.range 0)).ptrs j = true)) ∧
    ((∃ l, ((1 : Nat) + 0, l) ∈ generateSchedule exCalc planA routA 1 [] "iniciante" false [] [] ∧
        l ≠ []) ∨
      (dayLoop (mkCtx exCalc planA routA 1 [] "iniciante" [] []) (1 + 0) 500
        (dayEntry (mkCtx exCalc planA routA 1 [] "iniciante" [] [])
          (stateAfter (mkCtx exCalc planA routA 1 [] "iniciante" [] [])
            (initRunState (mkCtx exCalc planA routA 1 [] "iniciante" [] []))
            (List.range 0)) 0)).safety = 500) :=
  ⟨⟨by decide, by decide, ⟨0, by decide, by decide⟩⟩,
    C2_at_least_one_or_cap exCalc planA routA 1 [] "iniciante" [] [] 0 (by decide) (by decide)
      ⟨0, by decide, by decide⟩⟩

set_option maxRecDepth 100000

set_option maxHeartbeats 4000000

/-- C2 counterexample: in rotating mode with 500 empty cycles before an
unattempted exam, day 0 has 60 available minutes and remaining content,
yet the 500-iteration safety cap is spent skipping the empty cycles and
the agenda holds no entry for day 0 (the exam is nevertheless reachable:
it is scheduled on a later Monday). -/
theorem C2_counterexample :
    (0 < MAX_DAYS ∧
      routineGet routA (getDayName (1 + 0)) ≠ 0 ∧
      (∃ j, j < planC.cycles.length ∧
        cycleHasContent (mkCtx exCalc planC routA 1 [] "iniciante" [simE1] [])
          (stateAfter (mkCtx exCalc planC routA 1 [] "iniciante" [simE1] [])
            (initRunState (mkCtx exCalc planC routA 1 [] "iniciante" [simE1] []))
            (List.range 0)).ptrs j = true)) ∧
    ∀ l, ((1 : Nat) + 0, l) ∉
      generateSchedule exCalc planC routA 1 [] "iniciante" false [simE1] [] := by
  refine ⟨⟨by decide, by decide, ⟨500, by decide, by decide⟩⟩, ?_⟩
  intro l hl
  rw [generateSchedule_eq exCalc planC routA 1 [] "iniciante" [simE1] [] (by decide)
    (by decide)] at hl
  have h90 : List.range MAX_DAYS = 0 :: (List.range 89).map Nat.succ :=
    List.range_succ_eq_map 89
  rw [h90] at hl
  have hemp : (dayLoop (mkCtx exCalc planC routA 1 [] "iniciante" [simE1] [])
      ((mkCtx exCalc planC routA 1 [] "iniciante" [simE1] []).startDate + 0) 500
      (dayEntry (mkCtx exCalc planC routA 1 [] "iniciante" [simE1] [])
        (initRunState (mkCtx exCalc planC routA 1 [] "iniciante" [simE1] [])) 0)).items = [] := by
    rfl
  rw [runFrom_cons_empty (mkCtx exCalc planC routA 1 [] "iniciante" [simE1] [])
    (initRunState (mkCtx exCalc planC routA 1 [] "iniciante" [simE1] [])) 0
    ((List.range 89).map Nat.succ) (by decide) hemp] at hl
  obtain ⟨k, hk, he1, -⟩ := runFrom_entries _ _ _ _ hl
  obtain ⟨j, -, hj⟩ := List.mem_map.mp hk
  have : (1 : Nat) + 0 = 1 + k := he1
  omega

set_option maxRecDepth 512

set_option maxHeartbeats 200000

/-! ## Derived unique ids: separator parsing -/

/-- A string free of the `_` separator used by the derived unique ids. -/
def noUS (s : String) : Prop := '_' ∉ s.data

instance (s : String) : Decidable (noUS s) := by
  unfold noUS
  infer_instance

theorem sep_split : ∀ {a b l l' : List Char}, '_' ∉ a → '_' ∉ b →
    a ++ '_' :: l = b ++ '_' :: l' → a = b ∧ l = l' := by
  intro a
  induction a with
  | nil =>
    intro b l l' _ hb h
    cases b with
    | nil =>
      simp only [List.nil_append] at h
      injection h with _ h2
      exact ⟨rfl, h2⟩
    | cons y ys =>
      simp only [List.nil_append, List.cons_append] at h
      injection h with h1 _
      exact absurd (h1 ▸ List.mem_cons_self y ys) hb
  | cons x xs ih =>
    intro b l l' ha hb h
    cases b with
    | nil =>
      simp only [List.nil_append, List.cons_append] at h
      injection h with h1 _
      exact absurd (h1.symm ▸ List.mem_cons_self x xs) ha
    | cons y ys =>
      simp only [List.cons_append] at h
      injection h with h1 h2
      have ha' : '_' ∉ xs := fun hm => ha (List.mem_cons_of_mem x hm)
      have hb' : '_' ∉ ys := fun hm => hb (List.mem_cons_of_mem y hm)
      obtain ⟨he, hl⟩ := ih ha' hb' h2
      exact ⟨by rw [h1, he], hl⟩

theorem string_data_append (a b : String) : (a ++ b).data = a.data ++ b.data := rfl

theorem encGoalId_data (dateN : Nat) (c d g : String) :
    (encGoalId dateN c d g).data =
      (toString dateN).data ++ '_' :: (c.data ++ '_' :: (d.data ++ '_' :: g.data)) := by
  simp [encGoalId, string_data_append, List.append_assoc]

theorem encExamId_data (dateN : Nat) (simId : String) :
    (encExamId dateN simId).data =
      (toString dateN).data ++ '_' :: ('S' :: 'I' :: 'M' :: '_' :: simId.data) := by
  simp [encExamId, string_data_append, List.append_assoc]

theorem encGoalId_inj {dateN : Nat} {c d g c' d' g' : String}
    (hc : noUS c) (hc' : noUS c') (hd : noUS d) (hd' : noUS d')
    (h : encGoalId dateN c d g = encGoalId dateN c' d' g') : c = c' ∧ d = d' ∧ g = g' := by
  have hdata := congrArg String.data h
  rw [encGoalId_data, encGoalId_data] at hdata
  have h1 := List.append_cancel_left hdata
  injection h1 with _ h2
  obtain ⟨hcc, h3⟩ := sep_split hc hc' h2
  obtain ⟨hdd, h4⟩ := sep_split hd hd' h3
  exact ⟨String.ext hcc, String.ext hdd, String.ext h4⟩

theorem encExamId_ne_encGoalId {dateN : Nat} {sid c d g : String}
    (hs : noUS sid) (hc : noUS c) : encExamId dateN sid ≠ encGoalId dateN c d g := by
  intro h
  have hdata := congrArg String.data h
  rw [encExamId_data, encGoalId_data] at hdata
  have h1 := List.append_cancel_left hdata
  injection h1 with _ h2
  have hsim : '_' ∉ ['S', 'I', 'M'] := by decide
  have h2' : ['S', 'I', 'M'] ++ '_' :: sid.data = c.data ++ '_' :: (d.data ++ '_' :: g.data) := by
    simpa using h2
  obtain ⟨-, h3⟩ := sep_split hsim hc h2'
  exact hs (h3 ▸ List.mem_append_right d.data (List.mem_cons_self '_' g.data))

theorem encExamId_inj {dateN : Nat} {sid sid' : String}
    (h : encExamId dateN sid = encExamId dateN sid') : sid = sid' := by
  have hdata := congrArg String.data h
  rw [encExamId_data, encExamId_data] at hdata
  have h1 := List.append_cancel_left hdata
  injection h1 with _ h2
  injection h2 with _ h3
  injection h3 with _ h4
  injection h4 with _ h5
  injection h5 with _ h6
  exact String.ext h6

/-! ## Per-day uniqueness of derived ids -/

/-- The provenance of an item already placed today: an exam item carries a
catalog exam's derived id; a goal item carries the derived id of a queue
position strictly below the discipline's current pointer. -/
def ItemOk (ctx : Ctx) (dateN : Nat) (ptrs : List (String × Nat)) (it : ScheduledItem) : Prop :=
  (it.simuladoData.isSome ∧
    ∃ simulado ∈ ctx.allSimulados, it.uniqueId = encExamId dateN simulado.id) ∨
  (it.simuladoData = none ∧
    ∃ cid did q pos, (∃ c ∈ ctx.plan.cycles, c.id = cid) ∧
      lookupQueue ctx.plan did = some q ∧ ∃ hp : pos < q.length,
        it.uniqueId = encGoalId dateN cid did (q.get ⟨pos, hp⟩).goal.id ∧
        ∃ p, getPtr ptrs did = some p ∧ pos < p)

theorem ItemOk_mono (ctx : Ctx) (dateN : Nat) {ptrs ptrs' : List (String × Nat)}
    (hle : PtrsLe ptrs ptrs') {it : ScheduledItem} (h : ItemOk ctx dateN ptrs it) :
    ItemOk ctx dateN ptrs' it := by
  rcases h with h | ⟨hnone, cid, did, q, pos, hcid, hq, hp, hid, p, hptr, hlt⟩
  · exact Or.inl h
  · obtain ⟨p', hp', hle'⟩ := hle did p hptr
    exact Or.inr ⟨hnone, cid, did, q, pos, hcid, hq, hp, hid, p', hp', by omega⟩

/-- `lookupQueue` success pins down a plan discipline with the queried id. -/
theorem lookupQueue_spec {plan : StudyPlan} {did : String} {q : List QueuedGoal}
    (h : lookupQueue plan did = some q) :
    ∃ d, d ∈ plan.disciplines ∧ d.id = did ∧ q = flattenDiscipline d := by
  unfold lookupQueue at h
  rw [Option.map_eq_some'] at h
  obtain ⟨d, hfind, hflat⟩ := h
  refine ⟨d, ?_, ?_, hflat.symm⟩
  · exact List.mem_reverse.mp (List.mem_of_find?_eq_some hfind)
  · have := List.find?_some hfind
    simpa using this

/-- A discipline visit preserves per-day uniqueness of derived ids: each
placed goal sits at a fresh queue position (strictly below the updated
pointer), and with underscore-free ids and duplicate-free queues no two
derived ids can coincide. -/
theorem visit_nodup (ctx : Ctx) (dateN : Nat) (cid did : String) (target : Nat)
    (q : List QueuedGoal)
    (hq : lookupQueue ctx.plan did = some q)
    (hcid : ∃ c ∈ ctx.plan.cycles, c.id = cid)
    (hcidUS : noUS cid)
    (hC : ∀ c ∈ ctx.plan.cycles, noUS c.id)
    (hD : ∀ d ∈ ctx.plan.disciplines, noUS d.id)
    (hS : ∀ sm ∈ ctx.allSimulados, noUS sm.id)
    (hN : (q.map (fun qg => qg.goal.id)).Nodup) :
    ∀ (fuel : Nat) (s : VState),
    (∀ v, getPtr s.ptrs did = some v → v = s.pointer) →
    (s.items.map (fun it => it.uniqueId)).Nodup →
    (∀ it ∈ s.items, ItemOk ctx dateN s.ptrs it) →
    ((visit ctx dateN cid did target q fuel s).items.map (fun it => it.uniqueId)).Nodup ∧
    (∀ it ∈ (visit ctx dateN cid did target q fuel s).items,
      ItemOk ctx dateN (visit ctx dateN cid did target q fuel s).ptrs it) := by
  have hdidUS : noUS did := by
    obtain ⟨d, hd, hdid, -⟩ := lookupQueue_spec hq
    exact hdid ▸ hD d hd
  intro fuel
  induction fuel with
  | zero =>
    intro s _ hnd hok
    rw [visit_zero]
    exact ⟨hnd, hok⟩
  | succ n ih =>
    intro s hsync hnd hok
    by_cases h : s.scheduled < target ∧ s.pointer < q.length
    · have hstep : PtrsLe s.ptrs (setPtr s.ptrs did (s.pointer + 1)) :=
        PtrsLe.setPtr_of_le (fun v hv => by rw [hsync v hv]; omega)
      have hsync' : ∀ v, getPtr (setPtr s.ptrs did (s.pointer + 1)) did = some v →
          v = s.pointer + 1 := by
        intro v hv
        rw [getPtr_setPtr_self] at hv
        injection hv with hv
        omega
      by_cases hcomp : ctx.completedGoals.contains (q.get ⟨s.pointer, h.2⟩).goal.id = true
      · rw [visit_completed ctx dateN cid did target q n s h hcomp]
        exact ih { s with pointer := s.pointer + 1, ptrs := setPtr s.ptrs did (s.pointer + 1) }
          hsync' hnd (fun it hit => ItemOk_mono ctx dateN hstep (hok it hit))
      · rw [Bool.not_eq_true] at hcomp
        by_cases hb : (decide (s.minutes ≥ (resolveDuration ctx.calcDur (q.get ⟨s.pointer, h.2⟩).goal ctx.userLevel : Int)) ||
            (s.itemsToday == 0)) = true
        · rw [visit_place ctx dateN cid did target q n s h hcomp hb]
          have hfresh : (mkGoalItem ctx.calcDur ctx.userLevel dateN cid did
              (q.get ⟨s.pointer, h.2⟩)).uniqueId ∉ s.items.map (fun it => it.uniqueId) := by
            intro hmem
            rw [List.mem_map] at hmem
            obtain ⟨it, hit, hid⟩ := hmem
            rcases hok it hit with ⟨-, simulado, hsm, hsid⟩ |
              ⟨-, cid', did', q', pos', hcid', hq', hp', hid', p', hptr', hlt'⟩
            · rw [hsid] at hid
              exact encExamId_ne_encGoalId (hS simulado hsm) hcidUS hid
            · rw [hid'] at hid
              simp only [mkGoalItem] at hid
              obtain ⟨c', hc', hcid'eq⟩ := hcid'
              have hdid'US : noUS did' := by
                obtain ⟨d', hd', hdid', -⟩ := lookupQueue_spec hq'
                exact hdid' ▸ hD d' hd'
              obtain ⟨hcc, hdd, hgg⟩ := encGoalId_inj (hcid'eq ▸ hC c' hc') hcidUS hdid'US
                hdidUS hid
              subst hdd
              rw [hq] at hq'
              injection hq' with hqq
              subst hqq
              have hp'eq := hsync p' hptr'
              subst hp'eq
              have hne : pos' ≠ s.pointer := by omega
              refine hne ?_
              have hg1 : (q.map (fun qg => qg.goal.id)).get ⟨pos', by simpa using hp'⟩ =
                  (q.map (fun qg => qg.goal.id)).get ⟨s.pointer, by simpa using h.2⟩ := by
                simpa using hgg
              exact (List.Nodup.getElem_inj_iff hN).mp hg1
          have hnd' : ((s.items ++ [mkGoalItem ctx.calcDur ctx.userLevel dateN cid did
              (q.get ⟨s.pointer, h.2⟩)]).map (fun it => it.uniqueId)).Nodup := by
            rw [List.map_append]
            rw [List.nodup_append]
            refine ⟨hnd, by simp, ?_⟩
            intro x hx
            simp only [List.map_cons, List.map_nil, List.mem_singleton]
            intro hxeq
            subst hxeq
            exact hfresh hx
          have hok' : ∀ it ∈ (s.items ++ [mkGoalItem ctx.calcDur ctx.userLevel dateN cid did
              (q.get ⟨s.pointer, h.2⟩)]), ItemOk ctx dateN (setPtr s.ptrs did (s.pointer + 1)) it := by
            intro it hit
            rcases List.mem_append.mp hit with hit | hit
            · exact ItemOk_mono ctx dateN hstep (hok it hit)
            · rw [List.mem_singleton] at hit
              subst hit
              refine Or.inr ⟨rfl, cid, did, q, s.pointer, hcid, hq, h.2, rfl,
                s.pointer + 1, getPtr_setPtr_self s.ptrs did (s.pointer + 1), by omega⟩
          exact ih
            { pointer := s.pointer + 1
              scheduled := if (s.lastSub != "" && (q.get ⟨s.pointer, h.2⟩).subjectName == s.lastSub) then s.scheduled else s.scheduled + 1
              lastSub := if (s.lastSub != "" && (q.get ⟨s.pointer, h.2⟩).subjectName == s.lastSub) then s.lastSub else (q.get ⟨s.pointer, h.2⟩).subjectName
              minutes := s.minutes - (resolveDuration ctx.calcDur (q.get ⟨s.pointer, h.2⟩).goal ctx.userLevel : Int)
              items := s.items ++ [mkGoalItem ctx.calcDur ctx.userLevel dateN cid did (q.get ⟨s.pointer, h.2⟩)]
              itemsToday := s.itemsToday + 1
              processed := true
              ptrs := setPtr s.ptrs did (s.pointer + 1) } hsync' hnd' hok'
        · rw [Bool.not_eq_true] at hb
          rw [visit_budget ctx dateN cid did target q n s h hcomp hb]
          exact ⟨hnd, hok⟩
    · rw [visit_stop ctx dateN cid did target q n s h]
      exact ⟨hnd, hok⟩

/-- One body iteration preserves per-day uniqueness of derived ids, item
provenance, and — unless it zeroed the budget by placing an exam — the
absence of exam items. -/
theorem dayStepCore_nodup (ctx : Ctx) (dateN : Nat) (st : DayState)
    (hC : ∀ c ∈ ctx.plan.cycles, noUS c.id)
    (hD : ∀ d ∈ ctx.plan.disciplines, noUS d.id)
    (hS : ∀ sm ∈ ctx.allSimulados, noUS sm.id)
    (hN : ∀ did q, lookupQueue ctx.plan did = some q → (q.map (fun qg => qg.goal.id)).Nodup)
    (hnd : (st.items.map (fun it => it.uniqueId)).Nodup)
    (hok : ∀ it ∈ st.items, ItemOk ctx dateN st.ptrs it)
    (hnoexam : ∀ it ∈ st.items, it.simuladoData = none) :
    ((dayStepCore ctx dateN st).state.items.map (fun it => it.uniqueId)).Nodup ∧
    (∀ it ∈ (dayStepCore ctx dateN st).state.items,
      ItemOk ctx dateN (dayStepCore ctx dateN st).state.ptrs it) ∧
    ((∀ it ∈ (dayStepCore ctx dateN st).state.items, it.simuladoData = none) ∨
      (dayStepCore ctx dateN st).state.minutes ≤ 0) := by
  unfold dayStepCore
  cases hc : ctx.plan.cycles[st.cycleIdx]? with
  | none =>
    simp only [hc, StepRes.state]
    exact ⟨hnd, hok, Or.inl hnoexam⟩
  | some cycle =>
    simp only [hc]
    by_cases hend : st.itemIdx ≥ (expandCycleItems cycle ctx.plan).length
    · simp only [if_pos hend]
      by_cases hmode : ctx.mode == CycleSystem.continuo
      · simp only [hmode, if_true]
        by_cases hexh : isCycleExhausted ctx st.ptrs st.cycleIdx = true
        · simp only [hexh, if_true, StepRes.state]
          exact ⟨hnd, hok, Or.inl hnoexam⟩
        · simp only [hexh, Bool.false_eq_true, if_false, StepRes.state]
          exact ⟨hnd, hok, Or.inl hnoexam⟩
      · simp only [hmode, Bool.false_eq_true, if_false, StepRes.state]
        exact ⟨hnd, hok, Or.inl hnoexam⟩
    · simp only [if_neg hend]
      cases hitem : (expandCycleItems cycle ctx.plan)[st.itemIdx]? with
      | none =>
        simp only [hitem, StepRes.state]
        exact ⟨hnd, hok, Or.inl hnoexam⟩
      | some cycleItem =>
        simp only [hitem]
        cases hsim : cycleItem.simuladoId with
        | some simId =>
          simp only [hsim]
          by_cases hdone : isSimuladoCompleted simId ctx.userAttempts = true
          · simp only [hdone, if_true, StepRes.state]
            exact ⟨hnd, hok, Or.inl hnoexam⟩
          · simp only [hdone, Bool.false_eq_true, if_false]
            cases hfind : ctx.allSimulados.find? (fun s => s.id == simId) with
            | none =>
              simp only [hfind, StepRes.state]
              exact ⟨hnd, hok, Or.inl hnoexam⟩
            | some simulado =>
              simp only [hfind]
              have hsm : simulado ∈ ctx.allSimulados := List.mem_of_find?_eq_some hfind
              by_cases hbud : (st.itemsToday == 0 || decide (st.minutes > 60)) = true
              · simp only [hbud, if_true, StepRes.state]
                have hfresh : (mkExamItem dateN simulado).uniqueId ∉
                    st.items.map (fun it => it.uniqueId) := by
                  intro hmem
                  rw [List.mem_map] at hmem
                  obtain ⟨it, hit, hid⟩ := hmem
                  rcases hok it hit with ⟨hsome, -⟩ |
                    ⟨-, cid', did', q', pos', hcid', hq', hp', hid', p', hptr', hlt'⟩
                  · rw [hnoexam it hit] at hsome
                    simp at hsome
                  · rw [hid'] at hid
                    simp only [mkExamItem] at hid
                    obtain ⟨c', hc', hcid'eq⟩ := hcid'
                    exact encExamId_ne_encGoalId (hS simulado hsm)
                      (hcid'eq ▸ hC c' hc') hid.symm
                refine ⟨?_, ?_, Or.inr (by simp)⟩
                · rw [List.map_append, List.nodup_append]
                  refine ⟨hnd, by simp, ?_⟩
                  intro x hx
                  simp only [List.map_cons, List.map_nil, List.mem_singleton]
                  intro hxeq
                  subst hxeq
                  exact hfresh hx
                · intro it hit
                  rcases List.mem_append.mp hit with hit | hit
                  · exact hok it hit
                  · rw [List.mem_singleton] at hit
                    subst hit
                    exact Or.inl ⟨by simp [mkExamItem], simulado, hsm, rfl⟩
              · simp only [hbud, Bool.false_eq_true, if_false, StepRes.state]
                exact ⟨hnd, hok, Or.inl hnoexam⟩
        | none =>
          simp only [hsim]
          cases hdid : cycleItem.disciplineId with
          | none =>
            simp only [hdid, StepRes.state]
            exact ⟨hnd, hok, Or.inl hnoexam⟩
          | some did =>
            simp only [hdid]
            cases hq : lookupQueue ctx.plan did with
            | none =>
              simp only [hq, StepRes.state]
              exact ⟨hnd, hok, Or.inl hnoexam⟩
            | some q =>
              simp only [hq]
              by_cases hptr : (getPtr st.ptrs did).getD 0 ≥ q.length
              · simp only [hptr, if_pos, StepRes.state]
                exact ⟨hnd, hok, Or.inl hnoexam⟩
              · simp only [if_neg hptr]
                have hcycmem : cycle ∈ ctx.plan.cycles := List.getElem?_mem hc
                have hsync : ∀ v, getPtr st.ptrs did = some v →
                    v = (getPtr st.ptrs did).getD 0 := by
                  intro v hv; simp [hv]
                have hvres := visit_nodup ctx dateN cycle.id did cycleItem.subjectsCount q hq
                  ⟨cycle, hcycmem, rfl⟩ (hC cycle hcycmem) hC hD hS (hN did q hq)
                  (q.length + 1)
                  { pointer := (getPtr st.ptrs did).getD 0, scheduled := 0, lastSub := ""
                    minutes := st.minutes, items := st.items, itemsToday := st.itemsToday
                    processed := false, ptrs := st.ptrs } hsync hnd hok
                obtain ⟨t, ht, hprop⟩ := visit_shape ctx dateN cycle.id did
                  cycleItem.subjectsCount q (q.length + 1)
                  { pointer := (getPtr st.ptrs did).getD 0, scheduled := 0, lastSub := ""
                    minutes := st.minutes, items := st.items, itemsToday := st.itemsToday
                    processed := false, ptrs := st.ptrs }
                have hnoexam' : ∀ it ∈ (visit ctx dateN cycle.id did cycleItem.subjectsCount q
                    (q.length + 1)
                    { pointer := (getPtr st.ptrs did).getD 0, scheduled := 0, lastSub := ""
                      minutes := st.minutes, items := st.items, itemsToday := st.itemsToday
                      processed := false, ptrs := st.ptrs }).items, it.simuladoData = none := by
                  intro it hit
                  rw [ht] at hit
                  rcases List.mem_append.mp hit with hit | hit
                  · exact hnoexam it hit
                  · obtain ⟨pos, hp, -, heq⟩ := hprop it hit
                    rw [heq]
                    simp [mkGoalItem]
                split
                · exact ⟨hvres.1, hvres.2, Or.inl hnoexam'⟩
                · split
                  · exact ⟨hvres.1, hvres.2, Or.inl hnoexam'⟩
                  · exact ⟨hvres.1, hvres.2, Or.inl hnoexam'⟩

/-- `dayStepCore_nodup` lifted across the bounds check. -/
theorem dayStep_nodup (ctx : Ctx) (dateN : Nat) (st : DayState)
    (hC : ∀ c ∈ ctx.plan.cycles, noUS c.id)
    (hD : ∀ d ∈ ctx.plan.disciplines, noUS d.id)
    (hS : ∀ sm ∈ ctx.allSimulados, noUS sm.id)
    (hN : ∀ did q, lookupQueue ctx.plan did = some q → (q.map (fun qg => qg.goal.id)).Nodup)
    (hnd : (st.items.map (fun it => it.uniqueId)).Nodup)
    (hok : ∀ it ∈ st.items, ItemOk ctx dateN st.ptrs it)
    (hnoexam : ∀ it ∈ st.items, it.simuladoData = none) :
    ((dayStep ctx dateN st).state.items.map (fun it => it.uniqueId)).Nodup ∧
    (∀ it ∈ (dayStep ctx dateN st).state.items,
      ItemOk ctx dateN (dayStep ctx dateN st).state.ptrs it) ∧
    ((∀ it ∈ (dayStep ctx dateN st).state.items, it.simuladoData = none) ∨
      (dayStep ctx dateN st).state.minutes ≤ 0) := by
  unfold dayStep
  by_cases hb : st.cycleIdx ≥ ctx.plan.cycles.length
  · simp only [if_pos hb]
    by_cases hrot : ctx.mode == CycleSystem.rotativo
    · simp only [hrot, if_true]
      exact dayStepCore_nodup ctx dateN { st with cycleIdx := 0 } hC hD hS hN hnd hok hnoexam
    · simp only [hrot, Bool.false_eq_true, if_false, StepRes.state]
      exact ⟨hnd, hok, Or.inl hnoexam⟩
  · simp only [if_neg hb]
    exact dayStepCore_nodup ctx dateN st hC hD hS hN hnd hok hnoexam

/-- A whole day's item list carries pairwise-distinct derived unique ids
(under underscore-free ids and duplicate-free queues). -/
theorem dayLoop_nodup (ctx : Ctx) (dateN : Nat)
    (hC : ∀ c ∈ ctx.plan.cycles, noUS c.id)
    (hD : ∀ d ∈ ctx.plan.disciplines, noUS d.id)
    (hS : ∀ sm ∈ ctx.allSimulados, noUS sm.id)
    (hN : ∀ did q, lookupQueue ctx.plan did = some q → (q.map (fun qg => qg.goal.id)).Nodup) :
    ∀ (fuel : Nat) (st : DayState),
    (st.items.map (fun it => it.uniqueId)).Nodup →
    (∀ it ∈ st.items, ItemOk ctx dateN st.ptrs it) →
    (∀ it ∈ st.items, it.simuladoData = none) →
    ((dayLoop ctx dateN fuel st).items.map (fun it => it.uniqueId)).Nodup := by
  intro fuel
  induction fuel with
  | zero =>
    intro st hnd _ _
    rw [dayLoop_zero]
    exact hnd
  | succ n ih =>
    intro st hnd hok hnoexam
    by_cases hmin : st.minutes ≤ 0
    · rw [dayLoop_done ctx dateN n st hmin]
      exact hnd
    · have hstep := dayStep_nodup ctx dateN { st with safety := st.safety + 1 } hC hD hS hN
        hnd hok hnoexam
      cases hres : dayStep ctx dateN { st with safety := st.safety + 1 } with
      | stop s =>
        rw [dayLoop_stop ctx dateN n st s hmin hres]
        rw [hres] at hstep
        exact hstep.1
      | cont s =>
        rw [dayLoop_cont ctx dateN n st s hmin hres]
        rw [hres] at hstep
        simp only [StepRes.state] at hstep
        rcases hstep with ⟨hnd', hok', hcase⟩
        rcases hcase with hnoexam' | hmin0
        · exact ih s hnd' hok' hnoexam'
        · rw [dayLoop_min0 ctx dateN n s hmin0]
          exact hnd'

/-! ## C9: derived unique ids -/

/-- A discipline with a plain id and a single goal named `G`. -/
def discZ : Discipline :=
  { id := "Z", name := "DZ", order := 0, folderId := none,
    subjects := [{ name := "sz", order := 0,
                   goals := [{ id := "G", type := "OUTRO", title := "T", order := 0 }] }] }

/-- A discipline whose id contains an underscore, also with a goal `G`. -/
def discYZ : Discipline :=
  { id := "Y_Z", name := "DYZ", order := 0, folderId := none,
    subjects := [{ name := "sy", order := 0,
                   goals := [{ id := "G", type := "OUTRO", title := "T", order := 0 }] }] }

/-- A plan whose two cycle/discipline id pairs ("X_Y","Z") and
("X","Y_Z") concatenate to the same underscore-joined string. -/
def planX : StudyPlan :=
  { disciplines := [discZ, discYZ],
    cycles := [{ id := "X_Y", items := [{ disciplineId := some "Z", subjectsCount := 1 }] },
               { id := "X", items := [{ disciplineId := some "Y_Z", subjectsCount := 1 }] }],
    cycleSystem := some .continuo }

/-- C9, counterexample: the derived unique id is the plain string
`date_cycleId_disciplineId_goalId`, so ids containing underscores can
collide: with cycles "X_Y" and "X" over disciplines "Z" and "Y_Z" (each
holding a goal "G"), the first Monday schedules two items both carrying
the unique id "1_X_Y_Z_G". -/
theorem C9_counterexample :
    ∃ e ∈ generateSchedule exCalc planX routA 1 [] "iniciante" false [] [],
      ¬ ((e.2.map (fun it => it.uniqueId)).Nodup) := by
  decide

/-- C9, amended: if the cycle ids, discipline ids and exam ids contain no
underscore, and each discipline's flattened goal queue has pairwise
distinct goal ids, then no two items in any date's list share a derived
unique id. -/
theorem C9_unique_ids (calcDur : Goal → String → Nat) (plan : StudyPlan) (routine : Routine)
    (startDate : Nat) (completedGoals : List String) (userLevel : String) (isPaused : Bool)
    (allSimulados : List Simulado) (userAttempts : List SimuladoAttempt)
    (hC : ∀ c ∈ plan.cycles, noUS c.id)
    (hD : ∀ d ∈ plan.disciplines, noUS d.id)
    (hS : ∀ sm ∈ allSimulados, noUS sm.id)
    (hN : ∀ d ∈ plan.disciplines, ((flattenDiscipline d).map (fun qg => qg.goal.id)).Nodup) :
    ∀ e ∈ generateSchedule calcDur plan routine startDate completedGoals userLevel isPaused
        allSimulados userAttempts,
      (e.2.map (fun it => it.uniqueId)).Nodup := by
  intro e he
  obtain ⟨k, -, -, -, rs₀, hitems⟩ := schedule_entries calcDur plan routine startDate
    completedGoals userLevel isPaused allSimulados userAttempts e he
  rw [hitems]
  refine dayLoop_nodup (mkCtx calcDur plan routine startDate completedGoals userLevel
      allSimulados userAttempts) (startDate + k) hC hD hS ?_ 500
    (dayEntry (mkCtx calcDur plan routine startDate completedGoals userLevel
      allSimulados userAttempts) rs₀ k) (by simp [dayEntry]) ?_ ?_
  · intro did q hq
    obtain ⟨d, hd, -, hflat⟩ := lookupQueue_spec hq
    rw [hflat]
    exact hN d hd
  · intro it hit
    simp [dayEntry] at hit
  · intro it hit
    simp [dayEntry] at hit

theorem C9_witness :
    (∀ c ∈ planA.cycles, noUS c.id) ∧
    (∀ d ∈ planA.disciplines, ((flattenDiscipline d).map (fun qg => qg.goal.id)).Nodup) ∧
    ∀ e ∈ generateSchedule exCalc planA routA 1 [] "iniciante" false [] [],
      (e.2.map (fun it => it.uniqueId)).Nodup :=
  ⟨by decide, by decide,
    C9_unique_ids exCalc planA routA 1 [] "iniciante" false [] []
      (by decide) (by decide) (by decide) (by decide)⟩

end Insanus
